import Mathlib

/-! Minimarket: role menu (`Layout.js`) and order list pipeline (`OrdersScreen.js`).

A shallow embedding of the two React components of the repository.
JavaScript values that the code inspects dynamically are embedded as `JSVal`;
a call that raises a `TypeError` in JavaScript is embedded as `Except.error`.
-/

namespace Minimarket

/-! ## JavaScript values -/

/-- The JavaScript values a session or record field may hold. `num` covers the
integral numbers, `object` any object or array (always truthy, no string methods). -/
inductive JSVal where
  | undefined
  | null
  | bool (b : Bool)
  | num (n : Int)
  | str (s : String)
  | object
  deriving DecidableEq, Repr

/-- The exception raised by a failing property access or method call. -/
inductive JSError where
  | typeError
  deriving DecidableEq, Repr

deriving instance DecidableEq for Except

/-- JavaScript `ToBoolean`. -/
def truthy : JSVal → Bool
  | .undefined => false
  | .null => false
  | .bool b => b
  | .num n => n != 0
  | .str s => s != ""
  | .object => true

/-- JavaScript `a || b`. -/
def jsOr (a b : JSVal) : JSVal :=
  if truthy a then a else b

/-- `String.prototype.toLowerCase` on the ASCII letters `A`-`Z`, used where the code
compares a lowered string with a literal ("admin", "pendiente", "enviado",
"entregado", "cancelado"). Against these literals it is the full Unicode mapping: the
only other code point that lowers to an ASCII letter is U+212A, which lowers to `k`,
and no literal contains `k`. The free text of the order search is lowered by the
platform function itself, which the order pipeline takes as the parameter `lower`. -/
def toLowerCase (s : String) : String :=
  ⟨s.data.map Char.toLower⟩

/-- The method call `v.toLowerCase()` on a dynamically typed value: only a string
has the method, every other value raises a `TypeError`. -/
def callToLowerCase : JSVal → Except JSError String
  | .str s => .ok (toLowerCase s)
  | _ => .error .typeError

/-- Two characters are the same letter up to ASCII case: equal, or one is an upper-case
letter `A`-`Z` and the other the lower-case letter 32 code points above it. -/
def sameLetter (c d : Char) : Bool :=
  c == d
    || (decide (65 ≤ c.toNat) && decide (c.toNat ≤ 90) && decide (d.toNat = c.toNat + 32))
    || (decide (65 ≤ d.toNat) && decide (d.toNat ≤ 90) && decide (c.toNat = d.toNat + 32))

/-- Character-wise comparison up to case of two character sequences. -/
def equalsIgnoreCaseChars : List Char → List Char → Bool
  | [], [] => true
  | c :: cs, d :: ds => sameLetter c d && equalsIgnoreCaseChars cs ds
  | _, _ => false

/-- Specification of "equals case-insensitively": same length and, position by
position, the same letter up to case. -/
def equalsIgnoreCase (a b : String) : Bool :=
  equalsIgnoreCaseChars a.data b.data

/-! ## `Layout.js` -/

namespace Layout

/-- The `user` record of the session, read through `authState?.user?.role`. -/
structure User where
  role : JSVal
  deriving DecidableEq, Repr

/-- The `authState` supplied by `useAuth()`. -/
structure AuthState where
  authenticated : Bool
  role : JSVal
  user : Option User
  deriving DecidableEq, Repr

/-- The value of `authState?.user?.role`. -/
def userField (a : AuthState) : JSVal :=
  match a.user with
  | some u => u.role
  | none => .undefined

/-- Line 23: `authState?.role || authState?.user?.role || ""`. -/
def userRole (a : AuthState) : JSVal :=
  jsOr (jsOr a.role (userField a)) (.str "")

/-- Lines 71-75 and 94-98:
`userRole && (userRole === "admin" || userRole.toLowerCase() === "admin" || userRole === "ADMIN")`. -/
def isAdmin (userRole : JSVal) : Except JSError JSVal :=
  if truthy userRole then
    if userRole = .str "admin" then .ok (.bool true)
    else do
      let lowered ← callToLowerCase userRole
      if lowered = "admin" then .ok (.bool true)
      else .ok (.bool (decide (userRole = .str "ADMIN")))
  else .ok userRole

/-- Lines 25-38: the two comparisons the logging effect evaluates,
`userRole === "admin"` and `userRole.toLowerCase() === "admin"`. -/
def roleLoggingEffect (userRole : JSVal) : Except JSError (Bool × Bool) := do
  let direct := decide (userRole = .str "admin")
  let lowered ← callToLowerCase userRole
  .ok (direct, decide (lowered = "admin"))

/-- The second argument of `navigation.navigate`. -/
inductive Params where
  | absent
  | empty
  | screen (name : String)
  deriving DecidableEq, Repr

/-- A call `navigation.navigate(screenName, params)`. -/
structure Navigate where
  screenName : String
  params : Params
  deriving DecidableEq, Repr

/-- What an `onPress` handler of the drawer does, in order. -/
inductive Effect where
  | closeMenu
  | navigate (target : Navigate)
  | signOut
  deriving DecidableEq, Repr

/-- Lines 87-90: `navigateTo(screenName, params = {})`; a call without `params` passes
`Params.empty`. -/
def navigateTo (screenName : String) (params : Params) : List Effect :=
  [.closeMenu, .navigate ⟨screenName, params⟩]

/-- One `<MenuItem icon label onPress />`. -/
structure MenuItem where
  icon : String
  label : String
  onPress : List Effect
  deriving DecidableEq, Repr

/-- Lines 102-125: the items for a session that is not authenticated. -/
def guestItems : List MenuItem :=
  [ ⟨"home-outline", "Inicio", navigateTo "Home" .empty⟩,
    ⟨"cart-outline", "Carrito", navigateTo "CartScreen" .empty⟩,
    ⟨"log-in-outline", "Iniciar Sesión", navigateTo "Login" .empty⟩,
    ⟨"information-circle-outline", "Acerca de", navigateTo "About" .empty⟩ ]

/-- Lines 128-170: the items for an administrator. -/
def adminItems : List MenuItem :=
  [ ⟨"grid-outline", "Panel Principal", navigateTo "AdminRoot" (.screen "AdminDashboard")⟩,
    ⟨"cube-outline", "Crear Producto", navigateTo "AdminRoot" (.screen "CreateProduct")⟩,
    ⟨"document-text-outline", "Pedidos", navigateTo "AdminRoot" (.screen "OrdersScreen")⟩,
    ⟨"people-outline", "Gestión de Usuarios", navigateTo "AdminRoot" (.screen "UserManagement")⟩,
    ⟨"person-circle-outline", "Mi Cuenta", navigateTo "AdminRoot" (.screen "AccountScreenAdmin")⟩,
    ⟨"log-out-outline", "Cerrar Sesión", [.closeMenu, .signOut]⟩ ]

/-- Lines 173-209: the items for every other authenticated user. -/
def customerItems : List MenuItem :=
  [ ⟨"home-outline", "Inicio", navigateTo "UserRoot" (.screen "UserDashboard")⟩,
    ⟨"cart-outline", "Productos", navigateTo "UserRoot" (.screen "ProductList")⟩,
    ⟨"basket-outline", "Carrito", navigateTo "CartScreen" .empty⟩,
    ⟨"list-outline", "Mis Pedidos", navigateTo "UserRoot" (.screen "OrderHistory")⟩,
    ⟨"person-circle-outline", "Mi Cuenta", navigateTo "UserRoot" (.screen "AccountScreen")⟩,
    ⟨"log-out-outline", "Cerrar Sesión", [.closeMenu, .signOut]⟩ ]

/-- Lines 93-211: `renderMenuItems`. `isAdmin` is computed first, then the branch on
`authState.authenticated`. -/
def renderMenuItems (a : AuthState) : Except JSError (List MenuItem) := do
  let admin ← isAdmin (userRole a)
  if !a.authenticated then .ok guestItems
  else if truthy admin then .ok adminItems
  else .ok customerItems

/-- Lines 70-84: `handleProfilePress`, returning the navigation it issues. -/
def handleProfilePress (a : AuthState) : Except JSError Navigate := do
  let admin ← isAdmin (userRole a)
  if truthy admin then .ok ⟨"AdminRoot", .screen "AccountScreenAdmin"⟩
  else if truthy (userRole a) then .ok ⟨"UserRoot", .screen "AccountScreen"⟩
  else .ok ⟨"Login", .absent⟩

/-! ### The drawer: lines 40-68 -/

/-- An animation created by `Animated.timing(slideAnim, {toValue, duration: 300,
useNativeDriver: true})` and started with `.start(callback)`, not yet ended.
`toValue` is in units of `DRAWER_WIDTH`; `hidesMenu` tells whether the callback
`() => setMenuVisible(false)` was passed to `start`. -/
structure Timing where
  toValue : ℚ
  hidesMenu : Bool
  deriving DecidableEq

/-- The `menuVisible` cell, the value of `slideAnim` in units of `DRAWER_WIDTH`
(`-1` is `-DRAWER_WIDTH`, the drawer off screen; `0` is the drawer fully shown) and
the animation of `slideAnim` in flight, if any. -/
structure MenuState where
  menuVisible : Bool
  slideAnim : ℚ
  running : Option Timing
  deriving DecidableEq

/-- Lines 40-41: `useState(false)` and `new Animated.Value(-DRAWER_WIDTH)`. -/
def initialMenu : MenuState :=
  { menuVisible := false, slideAnim := -1, running := none }

/-- The end of the animation in flight: React Native invokes the callback given to
`start` when the animation has run to its end (`{finished: true}`) and also when it
is stopped before (`{finished: false}`); the callback of line 59 does not look at
its argument and calls `setMenuVisible(false)` in both cases. -/
def endAnimation (s : MenuState) : MenuState :=
  match s.running with
  | some t => { s with running := none,
                       menuVisible := if t.hidesMenu then false else s.menuVisible }
  | none => s

/-- The call `Animated.timing(slideAnim, ...).start(callback)`: React Native stops the
animation that is in flight on the same value, which ends it, and runs the new one. -/
def start (t : Timing) (s : MenuState) : MenuState :=
  { endAnimation s with running := some t }

/-- Lines 44-51: `openMenu`. -/
def openMenu (s : MenuState) : MenuState :=
  start ⟨0, false⟩ { s with menuVisible := true }

/-- Lines 54-60: `closeMenu`. -/
def closeMenu (s : MenuState) : MenuState :=
  start ⟨-1, true⟩ s

/-- Lines 62-68: `handleMenuPress`. -/
def handleMenuPress (s : MenuState) : MenuState :=
  if s.menuVisible then closeMenu s else openMenu s

/-- One frame of the animation in flight: `slideAnim` takes a value between its
current value and `toValue`. -/
def advance (value : ℚ) (s : MenuState) : MenuState :=
  match s.running with
  | some t =>
    if (s.slideAnim ≤ value ∧ value ≤ t.toValue) ∨ (t.toValue ≤ value ∧ value ≤ s.slideAnim)
    then { s with slideAnim := value } else s
  | none => s

/-- The animation in flight runs to its end: `slideAnim` is `toValue` and the
callback is invoked. -/
def finish (s : MenuState) : MenuState :=
  match s.running with
  | some t => endAnimation { s with slideAnim := t.toValue }
  | none => s

/-- The steps of the menu machine: the menu button (`onMenuPress`), a close request
(the overlay of line 223, `navigateTo`, the sign-out items), a frame of the
animation, the completion of the animation. -/
inductive MenuEvent where
  | toggle
  | closeRequest
  | frame (value : ℚ)
  | completion
  deriving DecidableEq

/-- One step of the menu machine: the state when the handler of the step returns. The
render that follows, in which a hidden drawer unmounts, is not a step of this machine. -/
def menuStep (s : MenuState) : MenuEvent → MenuState
  | .toggle => handleMenuPress s
  | .closeRequest => closeMenu s
  | .frame value => advance value s
  | .completion => finish s

/-- A sequence of steps applied in order. -/
def menuRun (s : MenuState) (events : List MenuEvent) : MenuState :=
  events.foldl menuStep s

/-- The animation progress of the specification: 0 with the drawer off screen
(`slideAnim = -DRAWER_WIDTH`), 1 with the drawer fully shown (`slideAnim = 0`). -/
def progress (s : MenuState) : ℚ :=
  1 + s.slideAnim

/-! ### The role classification as the specification words it -/

/-- The three role classes of the specification. -/
inductive RoleClass where
  | Guest
  | Customer
  | Admin
  deriving DecidableEq, Repr

/-- Specification of `resolveRole`: Guest iff not authenticated; else Admin iff the
role equals "admin" case-insensitively; else Customer. -/
def resolveRole (authenticated : Bool) (role : String) : RoleClass :=
  if !authenticated then .Guest
  else if equalsIgnoreCase role "admin" then .Admin
  else .Customer

/-- Specification of `menuItemsFor`: the fixed item set of each role class. -/
def menuItemsFor : RoleClass → List MenuItem
  | .Guest => guestItems
  | .Admin => adminItems
  | .Customer => customerItems

/-- Specification of `profileTarget`: the account screen of each role class. -/
def profileTarget : RoleClass → Navigate
  | .Admin => ⟨"AdminRoot", .screen "AccountScreenAdmin"⟩
  | .Customer => ⟨"UserRoot", .screen "AccountScreen"⟩
  | .Guest => ⟨"Login", .absent⟩

end Layout

/-! ## `OrdersScreen.js` -/

namespace OrdersScreen

/-- One entry of an order's `products`: a name and an integral quantity. -/
structure Product where
  name : String
  quantity : Int
  deriving DecidableEq, Repr

/-- The `products` field of an order: absent (`null`/`undefined`), an array, or a keyed
mapping, given by its entries in the order `Object.entries` enumerates them. -/
inductive Products where
  | absent
  | array (items : List Product)
  | mapping (entries : List (String × Product))
  deriving DecidableEq, Repr

/-- The `date` field: absent, a `{seconds}` timestamp, or a raw string. -/
inductive DateValue where
  | absent
  | seconds (s : Int)
  | text (t : String)
  deriving DecidableEq, Repr

/-- One document of the `pedidos` collection, as `fetchOrders` builds it. `name` is a
string or absent; `status` is read dynamically by `getStatusColor`. -/
structure Order where
  id : String
  name : Option String
  date : DateValue
  status : JSVal
  address : Option String
  total : Option Int
  products : Products
  deriving DecidableEq, Repr

/-- The `useState` cells of `OrdersScreen` (lines 23-31). -/
structure State where
  modalVisible : Bool
  selectedOrder : Option Order
  searchText : String
  orders : List Order
  loading : Bool
  currentPage : Int
  itemsPerPage : Nat
  deriving DecidableEq, Repr

/-- The state at mount: lines 23-31. -/
def initialState : State :=
  { modalVisible := false, selectedOrder := none, searchText := "", orders := [],
    loading := true, currentPage := 1, itemsPerPage := 5 }

/-- `String.prototype.includes` on code point sequences: the needle starts at some
position of the text. -/
def includesChars (needle : List Char) : List Char → Bool
  | [] => needle.isEmpty
  | c :: cs => needle.isPrefixOf (c :: cs) || includesChars needle cs

/-- `text.includes(needle)`. -/
def includes (text needle : String) : Bool :=
  includesChars needle.data text.data

/-- `order.name || ""`. -/
def nameOrEmpty (name : Option String) : String :=
  match name with
  | some n => if n != "" then n else ""
  | none => ""

/-- Lines 53-55: the callback of the filter,
`(order.name || "").toLowerCase().includes(searchText.toLowerCase())`. The parameter
`lower` is `String.prototype.toLowerCase` of the platform, with its full Unicode case
table. -/
def matchesSearch (lower : String → String) (searchText : String) (order : Order) : Bool :=
  includes (lower (nameOrEmpty order.name)) (lower searchText)

/-- Lines 53-55: `filteredOrders = orders.filter(...)`. -/
def filteredOrders (lower : String → String) (orders : List Order) (searchText : String) :
    List Order :=
  orders.filter (matchesSearch lower searchText)

/-- The relative index of `Array.prototype.slice`: a negative index counts from the
end, and the result is clamped to `[0, len]`. -/
def relativeIndex (len : Nat) (i : Int) : Nat :=
  if i < 0 then (len + i).toNat else min i.toNat len

/-- `xs.slice(start, stop)`. -/
def slice {α : Type} (xs : List α) (start stop : Int) : List α :=
  let k := relativeIndex xs.length start
  let final := relativeIndex xs.length stop
  (xs.drop k).take (final - k)

/-- Line 58: `indexOfLastOrder = currentPage * itemsPerPage`. -/
def indexOfLastOrder (currentPage : Int) (itemsPerPage : Nat) : Int :=
  currentPage * itemsPerPage

/-- Line 59: `indexOfFirstOrder = indexOfLastOrder - itemsPerPage`. -/
def indexOfFirstOrder (currentPage : Int) (itemsPerPage : Nat) : Int :=
  indexOfLastOrder currentPage itemsPerPage - itemsPerPage

/-- Lines 60-63: `currentOrders = filteredOrders.slice(indexOfFirstOrder, indexOfLastOrder)`. -/
def currentOrders (filtered : List Order) (currentPage : Int) (itemsPerPage : Nat) :
    List Order :=
  slice filtered (indexOfFirstOrder currentPage itemsPerPage)
    (indexOfLastOrder currentPage itemsPerPage)

/-- Line 64: `totalPages = Math.ceil(filteredOrders.length / itemsPerPage)`, for a
positive `itemsPerPage`: the quotient rounded up. -/
def totalPages (filtered : List Order) (itemsPerPage : Nat) : Nat :=
  (filtered.length + itemsPerPage - 1) / itemsPerPage

/-- The derived values of one render of a state. -/
def State.filtered (lower : String → String) (s : State) : List Order :=
  filteredOrders lower s.orders s.searchText

/-- The page a state renders (`data={currentOrders}`). -/
def State.page (lower : String → String) (s : State) : List Order :=
  currentOrders (s.filtered lower) s.currentPage s.itemsPerPage

/-- The `totalPages` a state renders. -/
def State.pageTotal (lower : String → String) (s : State) : Nat :=
  totalPages (s.filtered lower) s.itemsPerPage

/-- Line 156: the state setter `setSearchText(text)` alone. The render it causes shows
the new text with the page index as it was. -/
def setSearchText (text : String) (s : State) : State :=
  { s with searchText := text }

/-- Lines 67-69: the effect `setCurrentPage(1)`. -/
def resetPageEffect (s : State) : State :=
  { s with currentPage := 1 }

/-- The settled state after `onChangeText={setSearchText}`: the setter, then the effect
of lines 67-69, which has the dependency list `[searchText]` and so runs after the
render in which the stored text changed; setting the text it already holds causes no
render. The render committed between the setter and the effect is listed by `commits`. -/
def onChangeText (text : String) (s : State) : State :=
  if text = s.searchText then s else resetPageEffect (setSearchText text s)

/-- Lines 77-81: `goToNextPage`. -/
def goToNextPage (lower : String → String) (s : State) : State :=
  if s.currentPage < s.pageTotal lower then { s with currentPage := s.currentPage + 1 } else s

/-- Lines 83-87: `goToPrevPage`. -/
def goToPrevPage (s : State) : State :=
  if s.currentPage > 1 then { s with currentPage := s.currentPage - 1 } else s

/-- Lines 71-74: `handlePressOrder`. -/
def handlePressOrder (order : Order) (s : State) : State :=
  { s with selectedOrder := some order, modalVisible := true }

/-- Lines 309 and 316: the `onPress` of "Editar estado" and of "Cerrar",
`setModalVisible(false)`. -/
def closeModal (s : State) : State :=
  { s with modalVisible := false }

/-- Lines 221-226: the detail view is on screen when `selectedOrder` is set and the
`Modal` is `visible={modalVisible}`. -/
def detailShown (s : State) : Bool :=
  s.selectedOrder.isSome && s.modalVisible

/-- Lines 33-50: the fetch started at mount settles once, with the documents
(`setOrders`, then `setLoading(false)`) or with an error (`setLoading(false)` only). -/
def fetchSettled (result : Option (List Order)) (s : State) : State :=
  if s.loading then
    match result with
    | some docs => { s with orders := docs, loading := false }
    | none => { s with loading := false }
  else s

/-- The events that drive the list pipeline. -/
inductive Action where
  | fetchSettled (result : Option (List Order))
  | setSearchText (text : String)
  | goToNextPage
  | goToPrevPage
  deriving DecidableEq, Repr

/-- One event applied to a state, with the effects it causes run: the settled state. -/
def step (lower : String → String) (s : State) : Action → State
  | .fetchSettled result => fetchSettled result s
  | .setSearchText text => onChangeText text s
  | .goToNextPage => goToNextPage lower s
  | .goToPrevPage => goToPrevPage s

/-- A sequence of events applied in order. -/
def run (lower : String → String) (s : State) (actions : List Action) : State :=
  actions.foldl (step lower) s

/-- The renders an event commits, in order. A `setSearchText` with a new text commits
the render of the setter alone (line 156), which shows the new filter with the page
index as it was; the effect of lines 67-69 runs after that commit and, when the page
index is not 1 already, commits a second render with page index 1. Every other event
commits the render of its settled state. -/
def commits (lower : String → String) (s : State) : Action → List State
  | .setSearchText text =>
    if text = s.searchText then []
    else if s.currentPage = 1 then [setSearchText text s]
    else [setSearchText text s, resetPageEffect (setSearchText text s)]
  | .fetchSettled result => [step lower s (.fetchSettled result)]
  | .goToNextPage => [step lower s .goToNextPage]
  | .goToPrevPage => [step lower s .goToPrevPage]

/-- The renders committed along a sequence of events, in order. -/
def renders (lower : String → String) (s : State) : List Action → List State
  | [] => []
  | a :: rest => commits lower s a ++ renders lower (step lower s a) rest

/-- Lines 90-104: `getStatusColor`. -/
def getStatusColor (status : JSVal) : Except JSError String :=
  if !truthy status then .ok "#9E9E9E"
  else do
    let lowered ← callToLowerCase status
    if lowered = "pendiente" then .ok "#FFC107"
    else if lowered = "enviado" then .ok "#2196F3"
    else if lowered = "entregado" then .ok "#4CAF50"
    else if lowered = "cancelado" then .ok "#F44336"
    else .ok "#9E9E9E"

/-- One `<Text key=...>` child of the product row with its text content. -/
structure TextLine where
  key : Option String
  text : String
  deriving DecidableEq, Repr

/-- The children of lines 249 and 259: `• {prod.name} (x{prod.quantity})`. The
parameter `numberToString` is the platform's conversion of a number to the string
React renders (decimal digits for small integers, exponent form from 1e21 up). -/
def productText (numberToString : Int → String) (prod : Product) : String :=
  "• " ++ prod.name ++ " (x" ++ numberToString prod.quantity ++ ")"

/-- Lines 253, 264, 267: `<Text>Sin productos</Text>`. -/
def noProducts : List TextLine :=
  [⟨none, "Sin productos"⟩]

/-- Lines 244-268, the product row of the detail view (`formatProducts` in the
specification). -/
def formatProducts (numberToString : Int → String) : Products → List TextLine
  | .absent => noProducts
  | .array items =>
    if items.length > 0 then
      items.enum.map
        (fun (idx, prod) => ⟨some (toString idx), productText numberToString prod⟩)
    else noProducts
  | .mapping entries =>
    if entries.length > 0 then
      entries.map (fun (key, prod) => ⟨some key, productText numberToString prod⟩)
    else noProducts

/-- The display lines of a product row. -/
def lines (row : List TextLine) : List String :=
  row.map TextLine.text

/-! ### The pipeline as the specification words it -/

/-- Specification of "contains as a substring". -/
def ContainsSubstring (text needle : String) : Prop :=
  ∃ before after : List Char, text.data = before ++ needle.data ++ after

/-- A fact of `String.prototype.toLowerCase` that the statements about ASCII text
assume of the parameter `lower`: on a string of ASCII characters it lowers the letters
`A`-`Z` and keeps every other character. -/
def LowersAscii (lower : String → String) : Prop :=
  ∀ s : String, (∀ c ∈ s.data, c.toNat < 128) → lower s = toLowerCase s

/-- Specification of `clearSelection`: `selectedRecord` is set back to null. -/
def clearSelection (s : State) : State :=
  { s with selectedOrder := none }

/-- The pages `currentOrders` shows for `currentPage = 1, 2, ..., totalPages`, in order. -/
def allPages (filtered : List Order) (itemsPerPage : Nat) : List (List Order) :=
  (List.range (totalPages filtered itemsPerPage)).map
    (fun i => currentOrders filtered ((i + 1 : Nat) : Int) itemsPerPage)

/-- Specification of `pageCount`: `ceil(len(filtered)/pageSize)`, minimum 1. -/
def pageCount (filtered : List Order) (pageSize : Nat) : Nat :=
  max 1 ⌈(filtered.length : ℚ) / pageSize⌉₊

/-- Specification of the `ListQuery` invariant on one render:
`1 ≤ pageIndex ≤ max(1, ceil(filteredCount/pageSize))`. -/
def PageIndexInRange (lower : String → String) (s : State) : Prop :=
  1 ≤ s.currentPage ∧
    s.currentPage ≤ ((pageCount (s.filtered lower) s.itemsPerPage : Nat) : Int)

/-- A record set of twelve orders: eleven of the client "ana", the last of "bob". -/
def elevenAnaOneBob : List Order :=
  List.replicate 11 ⟨"p1", some "ana", .absent, .null, none, none, .absent⟩
    ++ [⟨"p12", some "bob", .absent, .null, none, none, .absent⟩]

/-- Specification of `statusColor`, with the colour tokens the code uses. -/
def statusColor (status : Option String) : String :=
  match status with
  | none => "#9E9E9E"
  | some s =>
    if equalsIgnoreCase s "pendiente" then "#FFC107"
    else if equalsIgnoreCase s "enviado" then "#2196F3"
    else if equalsIgnoreCase s "entregado" then "#4CAF50"
    else if equalsIgnoreCase s "cancelado" then "#F44336"
    else "#9E9E9E"

end OrdersScreen

end Minimarket

/-! # Theorems -/

namespace Minimarket

/-! ## Strings -/

theorem toNat_ofNat_of_lt (n : Nat) (h : n < 55296) : (Char.ofNat n).toNat = n := by
  have hv : n.isValidChar := Or.inl h
  simp [Char.ofNat, hv, Char.ofNatAux, Char.toNat, UInt32.toNat]

theorem char_toNat_inj (c d : Char) : c.toNat = d.toNat ↔ c = d := by
  constructor
  · intro h
    have := congrArg Char.ofNat h
    simpa using this
  · rintro rfl; rfl

/-- Two characters are the same letter up to case exactly when they lower to the
same character. -/
theorem sameLetter_iff_toLower (c d : Char) :
    sameLetter c d = true ↔ c.toLower = d.toLower := by
  simp only [sameLetter, Bool.or_eq_true, Bool.and_eq_true, decide_eq_true_eq, beq_iff_eq]
  unfold Char.toLower
  by_cases hc : c.toNat ≥ 65 ∧ c.toNat ≤ 90 <;> by_cases hd : d.toNat ≥ 65 ∧ d.toNat ≤ 90
  · rw [if_pos hc, if_pos hd, ← char_toNat_inj c d, ← char_toNat_inj,
      toNat_ofNat_of_lt _ (by omega), toNat_ofNat_of_lt _ (by omega)]
    omega
  · rw [if_pos hc, if_neg hd, ← char_toNat_inj c d, ← char_toNat_inj,
      toNat_ofNat_of_lt _ (by omega)]
    omega
  · rw [if_neg hc, if_pos hd, ← char_toNat_inj c d, ← char_toNat_inj,
      toNat_ofNat_of_lt _ (by omega)]
    omega
  · rw [if_neg hc, if_neg hd]
    constructor
    · rintro ((h | h) | h)
      · exact h
      · omega
      · omega
    · intro h; exact Or.inl (Or.inl h)

theorem equalsIgnoreCaseChars_iff (cs ds : List Char) :
    equalsIgnoreCaseChars cs ds = true ↔ cs.map Char.toLower = ds.map Char.toLower := by
  induction cs generalizing ds with
  | nil => cases ds <;> simp [equalsIgnoreCaseChars]
  | cons c cs ih =>
    cases ds with
    | nil => simp [equalsIgnoreCaseChars]
    | cons d ds =>
      simp only [equalsIgnoreCaseChars, Bool.and_eq_true, List.map_cons, List.cons.injEq,
        sameLetter_iff_toLower c d, ih ds]

theorem toLowerCase_eq_iff (s t : String) : toLowerCase s = t ↔ s.data.map Char.toLower = t.data := by
  constructor
  · intro h; rw [← h]; rfl
  · intro h; exact String.ext h

/-- Comparing up to case is comparing after lowering. -/
theorem equalsIgnoreCase_iff (s t : String) :
    equalsIgnoreCase s t = true ↔ toLowerCase s = toLowerCase t := by
  unfold equalsIgnoreCase
  rw [equalsIgnoreCaseChars_iff, toLowerCase_eq_iff]
  rfl

theorem equalsIgnoreCase_admin (r : String) :
    equalsIgnoreCase r "admin" = true ↔ toLowerCase r = "admin" :=
  equalsIgnoreCase_iff r "admin"

/-! ## `Layout.js`: role classification -/

namespace Layout

/-- The extracted role is a truthy value or the empty string. -/
theorem userRole_truthy_or_empty (a : AuthState) :
    truthy (userRole a) = true ∨ userRole a = .str "" := by
  unfold userRole jsOr
  by_cases h1 : truthy a.role = true
  · simp [h1]
  · by_cases h2 : truthy (userField a) = true
    · simp [h1, h2]
    · simp [h1, h2]

/-- On a string the admin test never throws, and it succeeds exactly when the
lowered string is "admin". -/
theorem isAdmin_str (r : String) :
    ∃ v, isAdmin (.str r) = .ok v ∧ (truthy v = true ↔ toLowerCase r = "admin") := by
  unfold isAdmin
  by_cases h0 : r = ""
  · subst h0
    refine ⟨.str "", by simp [truthy], ?_⟩
    simp only [truthy]
    decide
  · have ht : truthy (.str r) = true := by simp [truthy, h0]
    rw [if_pos ht]
    by_cases h1 : r = "admin"
    · subst h1
      refine ⟨.bool true, by simp, ?_⟩
      simp only [truthy, true_iff]
      decide
    · have h1' : ¬ (JSVal.str r = JSVal.str "admin") := by simpa using h1
      rw [if_neg h1']
      by_cases h2 : toLowerCase r = "admin"
      · refine ⟨.bool true, ?_, by simp [truthy, h2]⟩
        simp [callToLowerCase, h2, bind, Except.bind]
      · have h3 : r ≠ "ADMIN" := by
          rintro rfl
          exact h2 (by decide)
        refine ⟨.bool false, ?_, by simp [truthy, h2]⟩
        simp [callToLowerCase, h2, h3, bind, Except.bind]

/-- On a truthy value that is not a string the admin test throws. -/
theorem isAdmin_not_str (v : JSVal) (ht : truthy v = true) (hs : ∀ r, v ≠ .str r) :
    isAdmin v = .error .typeError := by
  unfold isAdmin
  rw [if_pos ht]
  cases v with
  | str r => exact absurd rfl (hs r)
  | undefined => simp [truthy] at ht
  | null => simp [truthy] at ht
  | bool b => simp [callToLowerCase, bind, Except.bind]
  | num n => simp [callToLowerCase, bind, Except.bind]
  | object => simp [callToLowerCase, bind, Except.bind]

theorem renderMenuItems_of_isAdmin (a : AuthState) (v : JSVal) (h : isAdmin (userRole a) = .ok v) :
    renderMenuItems a =
      .ok (if a.authenticated = false then guestItems
           else if truthy v = true then adminItems else customerItems) := by
  unfold renderMenuItems
  rw [h]
  cases ha : a.authenticated <;> cases hv : truthy v <;> simp [bind, Except.bind, hv]

theorem guestItems_ne_adminItems : guestItems ≠ adminItems := by decide

theorem guestItems_ne_customerItems : guestItems ≠ customerItems := by decide

theorem adminItems_ne_customerItems : adminItems ≠ customerItems := by decide

theorem equalsIgnoreCase_admin_false (r : String) :
    equalsIgnoreCase r "admin" = false ↔ toLowerCase r ≠ "admin" := by
  rw [Ne, ← equalsIgnoreCase_admin r]
  simp

/-- When the extracted role is a string, the item set is that of `resolveRole`. -/
theorem renderMenuItems_of_userRole_str (a : AuthState) (r : String)
    (hr : userRole a = .str r) :
    renderMenuItems a = .ok (menuItemsFor (resolveRole a.authenticated r)) := by
  obtain ⟨v, hv, hvt⟩ := isAdmin_str r
  rw [renderMenuItems_of_isAdmin a v (by rw [hr]; exact hv)]
  cases ha : a.authenticated
  · simp [resolveRole, menuItemsFor]
  · by_cases hadm : equalsIgnoreCase r "admin" = true
    · have hvt1 : truthy v = true := hvt.2 ((equalsIgnoreCase_admin r).1 hadm)
      simp [resolveRole, menuItemsFor, hadm, hvt1]
    · have hvt0 : truthy v = false := by
        cases h : truthy v
        · rfl
        · exact absurd ((equalsIgnoreCase_admin r).2 (hvt.1 h)) hadm
      have hadm0 : equalsIgnoreCase r "admin" = false := by simpa using hadm
      simp [resolveRole, menuItemsFor, hadm0, hvt0]

/-- When the extracted role is a truthy value that is not a string, `renderMenuItems`
throws before it tests `authenticated`. -/
theorem renderMenuItems_throws (a : AuthState) (ht : truthy (userRole a) = true)
    (hs : ∀ r, userRole a ≠ .str r) : renderMenuItems a = .error .typeError := by
  unfold renderMenuItems
  rw [isAdmin_not_str _ ht hs]
  rfl

/-- C1 as stated fails: with `authenticated = false` and the number 5 as role,
`renderMenuItems` throws a `TypeError` at `userRole.toLowerCase()`, which it evaluates
before it tests `authenticated`, instead of choosing the Guest items. -/
theorem renderMenuItems_guest_throws_on_number_role :
    (⟨false, .num 5, none⟩ : AuthState).authenticated = false ∧
    renderMenuItems ⟨false, .num 5, none⟩ = .error .typeError ∧
    renderMenuItems ⟨false, .num 5, none⟩ ≠ .ok guestItems := by
  decide

/-- C1 amended: for a session `{authenticated: b, role, user}`, (1) with a non-empty
string `r` as role the item set is that of `resolveRole b r`, whatever `user` is;
(2) with a role that is absent, null, empty or otherwise falsy and `user.role` a
non-empty string `r`, it is that of `resolveRole b r`; (3) with no role in either
place it is that of `resolveRole b ""`. So the Guest items are chosen iff `b` is
false, whatever the string role is; otherwise the Admin items iff the role equals
"admin" up to case ("admin", "Admin", "ADMIN"); otherwise the Customer items. (4) With
a truthy role that is not a string `renderMenuItems` throws a `TypeError`, whatever
`b` is. -/
theorem renderMenuItems_by_session (b : Bool) (r : String) (hr : r ≠ "")
    (absent absentToo : JSVal)
    (habsent : absent = .undefined ∨ absent = .null ∨ absent = .str "" ∨
      absent = .bool false ∨ absent = .num 0)
    (habsentToo : absentToo = .undefined ∨ absentToo = .null ∨ absentToo = .str "" ∨
      absentToo = .bool false ∨ absentToo = .num 0)
    (user : Option User) :
    renderMenuItems ⟨b, .str r, user⟩ = .ok (menuItemsFor (resolveRole b r)) ∧
    renderMenuItems ⟨b, absent, some ⟨.str r⟩⟩ = .ok (menuItemsFor (resolveRole b r)) ∧
    renderMenuItems ⟨b, absent, none⟩ = .ok (menuItemsFor (resolveRole b "")) ∧
    renderMenuItems ⟨b, absent, some ⟨absentToo⟩⟩ = .ok (menuItemsFor (resolveRole b "")) ∧
    (renderMenuItems ⟨false, .str r, user⟩ = .ok guestItems ∧
      renderMenuItems ⟨false, absent, some ⟨.str r⟩⟩ = .ok guestItems ∧
      renderMenuItems ⟨false, absent, none⟩ = .ok guestItems) ∧
    (renderMenuItems ⟨b, .str r, user⟩ = .ok guestItems ↔ b = false) ∧
    (renderMenuItems ⟨b, .str r, user⟩ = .ok adminItems ↔
      b = true ∧ equalsIgnoreCase r "admin" = true) ∧
    (renderMenuItems ⟨b, .str r, user⟩ = .ok customerItems ↔
      b = true ∧ equalsIgnoreCase r "admin" = false) ∧
    renderMenuItems ⟨true, absent, none⟩ = .ok customerItems ∧
    (renderMenuItems ⟨true, .str "admin", user⟩ = .ok adminItems ∧
      renderMenuItems ⟨true, .str "Admin", user⟩ = .ok adminItems ∧
      renderMenuItems ⟨true, .str "ADMIN", user⟩ = .ok adminItems ∧
      renderMenuItems ⟨true, .str "cliente", user⟩ = .ok customerItems) ∧
    (∀ v : JSVal, (v = .object ∨ v = .bool true ∨ ∃ n : Int, n ≠ 0 ∧ v = .num n) →
      renderMenuItems ⟨b, v, user⟩ = .error .typeError) := by
  have g1 := guestItems_ne_adminItems
  have g2 := guestItems_ne_customerItems
  have g3 := adminItems_ne_customerItems
  have hstr : ∀ (c : Bool) (t : String), t ≠ "" →
      renderMenuItems ⟨c, .str t, user⟩ = .ok (menuItemsFor (resolveRole c t)) := by
    intro c t ht
    exact renderMenuItems_of_userRole_str ⟨c, .str t, user⟩ t
      (by simp [userRole, jsOr, truthy, ht])
  have hfalsy : truthy absent = false := by
    rcases habsent with h | h | h | h | h <;> subst h <;> rfl
  have hfalsyToo : truthy absentToo = false := by
    rcases habsentToo with h | h | h | h | h <;> subst h <;> rfl
  have huser : ∀ c : Bool,
      renderMenuItems ⟨c, absent, some ⟨.str r⟩⟩ = .ok (menuItemsFor (resolveRole c r)) := by
    intro c
    have htr : truthy (.str r) = true := by simp [truthy, hr]
    exact renderMenuItems_of_userRole_str ⟨c, absent, some ⟨.str r⟩⟩ r
      (by simp [userRole, jsOr, userField, hfalsy, htr])
  have hnone : ∀ c : Bool,
      renderMenuItems ⟨c, absent, none⟩ = .ok (menuItemsFor (resolveRole c "")) := by
    intro c
    have htu : truthy .undefined = false := rfl
    exact renderMenuItems_of_userRole_str ⟨c, absent, none⟩ ""
      (by simp [userRole, jsOr, userField, hfalsy, htu])
  have hboth :
      renderMenuItems ⟨b, absent, some ⟨absentToo⟩⟩ = .ok (menuItemsFor (resolveRole b "")) :=
    renderMenuItems_of_userRole_str ⟨b, absent, some ⟨absentToo⟩⟩ ""
      (by simp [userRole, jsOr, userField, hfalsy, hfalsyToo])
  have hempty : equalsIgnoreCase "" "admin" = false := by decide
  refine ⟨hstr b r hr, huser b, hnone b, hboth, ⟨?_, ?_, ?_⟩, ?_, ?_, ?_, ?_, ⟨?_, ?_, ?_, ?_⟩, ?_⟩
  · rw [hstr false r hr]; rfl
  · rw [huser false]; rfl
  · rw [hnone false]; rfl
  · rw [hstr b r hr]
    cases b
    · simp [resolveRole, menuItemsFor]
    · by_cases hadm : equalsIgnoreCase r "admin" = true
      · simp [resolveRole, menuItemsFor, hadm, g1.symm]
      · simp [resolveRole, menuItemsFor, hadm, g2.symm]
  · rw [hstr b r hr]
    cases b
    · simp [resolveRole, menuItemsFor, g1]
    · by_cases hadm : equalsIgnoreCase r "admin" = true
      · simp [resolveRole, menuItemsFor, hadm]
      · simp [resolveRole, menuItemsFor, hadm, g3.symm]
  · rw [hstr b r hr]
    cases b
    · simp [resolveRole, menuItemsFor, g2]
    · by_cases hadm : equalsIgnoreCase r "admin" = true
      · simp [resolveRole, menuItemsFor, hadm, g3]
      · simp [resolveRole, menuItemsFor, hadm]
  · rw [hnone true]
    simp [resolveRole, menuItemsFor, hempty]
  · rw [hstr true "admin" (by decide)]; decide
  · rw [hstr true "Admin" (by decide)]; decide
  · rw [hstr true "ADMIN" (by decide)]; decide
  · rw [hstr true "cliente" (by decide)]; decide
  · intro v hv
    have htv : truthy v = true := by
      rcases hv with h | h | ⟨n, hn, h⟩
      · subst h; rfl
      · subst h; rfl
      · subst h; simp [truthy, hn]
    have hrole : userRole ⟨b, v, user⟩ = v := by simp [userRole, jsOr, htv]
    apply renderMenuItems_throws
    · rw [hrole]; exact htv
    · intro t
      rw [hrole]
      rcases hv with h | h | ⟨n, _, h⟩ <;> subst h <;> simp

/-- Witness of C1 amended: an authenticated session carrying the role "Admin" gets the
Admin items. -/
theorem renderMenuItems_by_session_witness :
    renderMenuItems ⟨true, .str "Admin", none⟩ = .ok adminItems :=
  (renderMenuItems_by_session true "Admin" (by decide) .null .undefined
    (Or.inr (Or.inl rfl)) (Or.inl rfl) none).2.2.2.2.2.2.1.2 ⟨rfl, by decide⟩

/-- C2 fails on the code at two sessions. An authenticated session with an empty role
classifies as Customer: `renderMenuItems` gives it the Customer items, whose
"Mi Cuenta" item navigates to the user account screen, yet `handleProfilePress`
navigates to Login. A session that is not authenticated but carries the role "admin"
classifies as Guest: `renderMenuItems` gives it the Guest items, whose
"Iniciar Sesión" item navigates to Login, yet `handleProfilePress` navigates to the
admin account screen. -/
theorem handleProfilePress_not_by_roleClass :
    (userRole ⟨true, .str "", none⟩ = .str "" ∧
      resolveRole true "" = .Customer ∧
      renderMenuItems ⟨true, .str "", none⟩ = .ok customerItems ∧
      ⟨"person-circle-outline", "Mi Cuenta", navigateTo "UserRoot" (.screen "AccountScreen")⟩
        ∈ customerItems ∧
      handleProfilePress ⟨true, .str "", none⟩ = .ok ⟨"Login", .absent⟩ ∧
      handleProfilePress ⟨true, .str "", none⟩ ≠ .ok (profileTarget (resolveRole true ""))) ∧
    (userRole ⟨false, .str "admin", none⟩ = .str "admin" ∧
      resolveRole false "admin" = .Guest ∧
      renderMenuItems ⟨false, .str "admin", none⟩ = .ok guestItems ∧
      ⟨"log-in-outline", "Iniciar Sesión", navigateTo "Login" .empty⟩ ∈ guestItems ∧
      handleProfilePress ⟨false, .str "admin", none⟩
        = .ok ⟨"AdminRoot", .screen "AccountScreenAdmin"⟩ ∧
      handleProfilePress ⟨false, .str "admin", none⟩
        ≠ .ok (profileTarget (resolveRole false "admin"))) := by
  decide

/-- C3 as stated fails: with `authenticated = true` and the number 5 as role, the
extracted role is 5, and the admin test, the logging effect and `renderMenuItems`
all throw a `TypeError` at `userRole.toLowerCase()` instead of yielding Customer. -/
theorem roleClass_throws_on_number_role :
    userRole ⟨true, .num 5, none⟩ = .num 5 ∧
    isAdmin (userRole ⟨true, .num 5, none⟩) = .error .typeError ∧
    roleLoggingEffect (userRole ⟨true, .num 5, none⟩) = .error .typeError ∧
    renderMenuItems ⟨true, .num 5, none⟩ = .error .typeError ∧
    renderMenuItems ⟨true, .num 5, none⟩ ≠ .ok customerItems := by
  decide

/-- C3 amended: for an authenticated session, (1) when both role fields are absent,
empty or otherwise falsy the extracted role is the empty string; (2) when the
extracted role is a string that is not "admin" up to case, the admin test and the
logging effect complete without throwing and the Customer items are chosen; (3) when
the extracted role is not an "admin" string, of whatever type, the Admin items are
never chosen and the admin test never succeeds; (4) when the extracted role is not a
string (a truthy value of another type) the classification throws a `TypeError`. -/
theorem roleClass_total_on_strings_never_elevates (a : AuthState)
    (hauth : a.authenticated = true) :
    (truthy a.role = false → truthy (userField a) = false → userRole a = .str "") ∧
    (∀ r, userRole a = .str r → equalsIgnoreCase r "admin" = false →
      (∃ v, isAdmin (userRole a) = .ok v ∧ truthy v = false) ∧
      roleLoggingEffect (userRole a) = .ok (false, false) ∧
      renderMenuItems a = .ok customerItems) ∧
    ((∀ r, userRole a = .str r → equalsIgnoreCase r "admin" = false) →
      renderMenuItems a ≠ .ok adminItems ∧
      ∀ v, isAdmin (userRole a) = .ok v → truthy v = false) ∧
    ((∀ r, userRole a ≠ .str r) →
      isAdmin (userRole a) = .error .typeError ∧
      roleLoggingEffect (userRole a) = .error .typeError ∧
      renderMenuItems a = .error .typeError) := by
  have hstr : ∀ r, userRole a = .str r → equalsIgnoreCase r "admin" = false →
      (∃ v, isAdmin (userRole a) = .ok v ∧ truthy v = false) ∧
      roleLoggingEffect (userRole a) = .ok (false, false) ∧
      renderMenuItems a = .ok customerItems := by
    intro r hr hadm
    obtain ⟨v, hv, hvt⟩ := isAdmin_str r
    have hlow : toLowerCase r ≠ "admin" := (equalsIgnoreCase_admin_false r).1 hadm
    have hvt0 : truthy v = false := by
      cases h : truthy v
      · rfl
      · exact absurd (hvt.1 h) hlow
    have hne : r ≠ "admin" := by
      rintro rfl
      exact hlow (by decide)
    refine ⟨⟨v, by rw [hr]; exact hv, hvt0⟩, ?_, ?_⟩
    · rw [hr]
      simp [roleLoggingEffect, callToLowerCase, bind, Except.bind, hne, hlow]
    · rw [renderMenuItems_of_isAdmin a v (by rw [hr]; exact hv)]
      simp [hauth, hvt0]
  have hthrow : (∀ r, userRole a ≠ .str r) → isAdmin (userRole a) = .error .typeError := by
    intro hns
    rcases userRole_truthy_or_empty a with ht | he
    · exact isAdmin_not_str _ ht hns
    · exact absurd he (hns "")
  refine ⟨?_, hstr, ?_, ?_⟩
  · intro h1 h2
    simp [userRole, jsOr, h1, h2]
  · intro hall
    by_cases hs : ∃ r, userRole a = .str r
    · obtain ⟨r, hr⟩ := hs
      obtain ⟨⟨v, hv, hvt0⟩, _, hrender⟩ := hstr r hr (hall r hr)
      refine ⟨?_, ?_⟩
      · rw [hrender]
        intro h
        exact adminItems_ne_customerItems (Except.ok.inj h).symm
      · intro w hw
        rw [hv] at hw
        rw [← Except.ok.inj hw]
        exact hvt0
    · have hns : ∀ r, userRole a ≠ .str r := fun r hr => hs ⟨r, hr⟩
      have he := hthrow hns
      refine ⟨?_, ?_⟩
      · unfold renderMenuItems
        rw [he]
        simp [bind, Except.bind]
      · intro w hw
        rw [he] at hw
        cases hw
  · intro hns
    have he := hthrow hns
    refine ⟨he, ?_, ?_⟩
    · cases hu : userRole a with
      | str r => exact absurd hu (hns r)
      | undefined => simp [roleLoggingEffect, callToLowerCase, bind, Except.bind]
      | null => simp [roleLoggingEffect, callToLowerCase, bind, Except.bind]
      | bool b => simp [roleLoggingEffect, callToLowerCase, bind, Except.bind]
      | num n => simp [roleLoggingEffect, callToLowerCase, bind, Except.bind]
      | object => simp [roleLoggingEffect, callToLowerCase, bind, Except.bind]
    · unfold renderMenuItems
      rw [he]
      simp [bind, Except.bind]

/-- Witness of C3 amended: an authenticated session without any role. -/
theorem roleClass_total_on_strings_never_elevates_witness :
    (⟨true, .undefined, none⟩ : AuthState).authenticated = true ∧
    renderMenuItems ⟨true, .undefined, none⟩ = .ok customerItems :=
  ⟨rfl,
    ((roleClass_total_on_strings_never_elevates ⟨true, .undefined, none⟩ rfl).2.1
      "" rfl (by decide)).2.2⟩

end Layout

/-! ## `OrdersScreen.js`: filtering -/

namespace OrdersScreen

/-- The search of `includes` finds the needle exactly when the text splits around it. -/
theorem includesChars_iff (needle text : List Char) :
    includesChars needle text = true ↔ ∃ before after, text = before ++ needle ++ after := by
  induction text with
  | nil =>
    simp only [includesChars, List.isEmpty_iff]
    constructor
    · rintro rfl; exact ⟨[], [], rfl⟩
    · rintro ⟨before, after, h⟩
      have h1 := congrArg List.length h
      simp only [List.length_nil, List.length_append] at h1
      exact List.length_eq_zero.1 (by omega)
  | cons c cs ih =>
    simp only [includesChars, Bool.or_eq_true, List.isPrefixOf_iff_prefix, ih]
    constructor
    · rintro (⟨after, h⟩ | ⟨before, after, h⟩)
      · exact ⟨[], after, by simpa using h.symm⟩
      · exact ⟨c :: before, after, by simp [h]⟩
    · rintro ⟨before, after, h⟩
      cases before with
      | nil => exact Or.inl ⟨after, by simpa using h.symm⟩
      | cons b before =>
        simp only [List.cons_append, List.cons.injEq] at h
        exact Or.inr ⟨before, after, h.2⟩

theorem includes_iff (text needle : String) :
    includes text needle = true ↔ ContainsSubstring text needle :=
  includesChars_iff _ _

theorem includesChars_nil (text : List Char) : includesChars [] text = true :=
  (includesChars_iff [] text).2 ⟨[], text, rfl⟩

theorem toLowerCase_empty : toLowerCase "" = "" := rfl

theorem toLowerCase_eq_empty (s : String) : toLowerCase s = "" ↔ s = "" := by
  rw [toLowerCase_eq_iff]
  constructor
  · intro h
    exact String.ext (List.map_eq_nil_iff.1 h)
  · rintro rfl; rfl

theorem nameOrEmpty_eq (name : Option String) : nameOrEmpty name = name.getD "" := by
  cases name with
  | none => rfl
  | some n =>
    by_cases h : n = ""
    · subst h; rfl
    · simp [nameOrEmpty, h]

theorem matchesSearch_iff (lower : String → String) (text : String) (o : Order) :
    matchesSearch lower text o = true ↔
      ContainsSubstring (lower (o.name.getD "")) (lower text) := by
  unfold matchesSearch
  rw [includes_iff, nameOrEmpty_eq]

theorem matchesSearch_empty (lower : String → String) (hempty : lower "" = "") (o : Order) :
    matchesSearch lower "" o = true := by
  unfold matchesSearch includes
  rw [hempty]
  exact includesChars_nil _

theorem filteredOrders_empty_query (lower : String → String) (hempty : lower "" = "")
    (orders : List Order) : filteredOrders lower orders "" = orders := by
  unfold filteredOrders
  rw [List.filter_eq_self]
  exact fun o _ => matchesSearch_empty lower hempty o

theorem matchesSearch_congr (lower : String → String) (text : String) (o o' : Order)
    (h : o.name = o'.name) : matchesSearch lower text o = matchesSearch lower text o' := by
  unfold matchesSearch
  rw [h]

theorem filteredOrders_names (lower : String → String) (text : String)
    (orders orders' : List Order) (h : orders.map Order.name = orders'.map Order.name) :
    (filteredOrders lower orders text).map Order.name
      = (filteredOrders lower orders' text).map Order.name := by
  induction orders generalizing orders' with
  | nil =>
    cases orders' with
    | nil => rfl
    | cons o' os' => simp at h
  | cons o os ih =>
    cases orders' with
    | nil => simp at h
    | cons o' os' =>
      simp only [List.map_cons, List.cons.injEq] at h
      have hrec := ih os' h.2
      have hm := matchesSearch_congr lower text o o' h.1
      unfold filteredOrders at hrec ⊢
      simp only [List.filter_cons, hm]
      cases matchesSearch lower text o'
      · simpa using hrec
      · simp [h.1, hrec]

/-- On ASCII text, with a lowering that lowers ASCII letters, a record matches exactly
when some stretch of its name is the search text up to the case of its letters. -/
theorem matchesSearch_ascii (lower : String → String) (hascii : LowersAscii lower)
    (text : String) (o : Order)
    (hname : ∀ c ∈ (o.name.getD "").data, c.toNat < 128)
    (htext : ∀ c ∈ text.data, c.toNat < 128) :
    matchesSearch lower text o = true ↔
      ∃ before mid after : List Char,
        (o.name.getD "").data = before ++ mid ++ after ∧
        equalsIgnoreCaseChars mid text.data = true := by
  rw [matchesSearch_iff, hascii _ hname, hascii _ htext]
  unfold ContainsSubstring
  show (∃ before after : List Char,
      (o.name.getD "").data.map Char.toLower = before ++ text.data.map Char.toLower ++ after) ↔ _
  constructor
  · rintro ⟨pre, post, h⟩
    obtain ⟨l12, l3, h123, hl12, _⟩ := List.map_eq_append_iff.1 h
    obtain ⟨l1, l2, h12, _, hl2⟩ := List.map_eq_append_iff.1 hl12
    refine ⟨l1, l2, l3, by rw [h123, h12], ?_⟩
    exact (equalsIgnoreCaseChars_iff l2 text.data).2 hl2
  · rintro ⟨before, mid, after, hsplit, heq⟩
    refine ⟨before.map Char.toLower, after.map Char.toLower, ?_⟩
    rw [hsplit, List.map_append, List.map_append,
      (equalsIgnoreCaseChars_iff mid text.data).1 heq]

/-- C5: for the platform's lowering `lower`, whatever its case table, `filteredOrders`
is exactly the filter of the records, in source order, by "the lower-cased name (an
absent name taken as the empty string) contains the lower-cased search text": it
equals `orders.filter p` for every test `p` deciding that predicate, it is a sublist
of the records, it depends on the records through their names only, and the empty
record list filters to the empty list. With the facts of `toLowerCase` that the empty
string lowers to itself and only to itself, an absent name matches the empty query
only and the empty query keeps every record. On ASCII text a record matches exactly
when a stretch of its name equals the search text up to the case of its letters: the
query "AN" finds the record named "Ana", and the query "pendiente" does not find it
although its status is "pendiente". -/
theorem filteredOrders_is_name_filter (lower : String → String) (orders : List Order)
    (text : String) :
    (∀ p : Order → Bool,
        (∀ o, p o = true ↔
          ContainsSubstring (lower (o.name.getD "")) (lower text)) →
        filteredOrders lower orders text = orders.filter p) ∧
    List.Sublist (filteredOrders lower orders text) orders ∧
    (∀ o, o ∈ filteredOrders lower orders text ↔
        o ∈ orders ∧ ContainsSubstring (lower (o.name.getD "")) (lower text)) ∧
    (∀ orders' : List Order, orders.map Order.name = orders'.map Order.name →
        (filteredOrders lower orders text).map Order.name
          = (filteredOrders lower orders' text).map Order.name) ∧
    filteredOrders lower [] text = [] ∧
    (lower "" = "" → (∀ t, lower t = "" → t = "") →
      ∀ o : Order, o.name = none → (matchesSearch lower text o = true ↔ text = "")) ∧
    (lower "" = "" → filteredOrders lower orders "" = orders) ∧
    (LowersAscii lower →
      ∀ o : Order, (∀ c ∈ (o.name.getD "").data, c.toNat < 128) →
        (∀ c ∈ text.data, c.toNat < 128) →
        (matchesSearch lower text o = true ↔
          ∃ before mid after : List Char,
            (o.name.getD "").data = before ++ mid ++ after ∧
            equalsIgnoreCaseChars mid text.data = true)) ∧
    (LowersAscii lower →
      filteredOrders lower
          [⟨"p1", some "Ana", .absent, .str "pendiente", none, none, .absent⟩,
           ⟨"p2", none, .absent, .null, none, none, .absent⟩] "AN"
        = [⟨"p1", some "Ana", .absent, .str "pendiente", none, none, .absent⟩] ∧
      filteredOrders lower
          [⟨"p1", some "Ana", .absent, .str "pendiente", none, none, .absent⟩,
           ⟨"p2", none, .absent, .null, none, none, .absent⟩] "pendiente"
        = []) := by
  refine ⟨?_, ?_, ?_, ?_, rfl, ?_, ?_, ?_, ?_⟩
  · intro p hp
    unfold filteredOrders
    congr 1
    funext o
    have h1 := matchesSearch_iff lower text o
    have h2 := hp o
    cases hm : matchesSearch lower text o <;> cases hq : p o <;> simp_all
  · exact List.filter_sublist _
  · intro o
    unfold filteredOrders
    rw [List.mem_filter, matchesSearch_iff]
  · exact fun orders' h => filteredOrders_names lower text orders orders' h
  · intro hempty honly o hname
    unfold matchesSearch includes
    rw [hname]
    show includesChars (lower text).data (lower "").data = true ↔ text = ""
    rw [hempty]
    show includesChars (lower text).data [] = true ↔ text = ""
    simp only [includesChars, List.isEmpty_iff]
    constructor
    · intro h
      exact honly text (String.ext h)
    · intro h
      rw [h, hempty]
  · exact fun hempty => filteredOrders_empty_query lower hempty orders
  · exact fun hascii o hname htext => matchesSearch_ascii lower hascii text o hname htext
  · intro hascii
    have hana : lower "Ana" = "ana" := hascii "Ana" (by decide)
    have hAN : lower "AN" = "an" := hascii "AN" (by decide)
    have hpend : lower "pendiente" = "pendiente" := hascii "pendiente" (by decide)
    have hnone : lower "" = "" := hascii "" (by decide)
    have m1 : matchesSearch lower "AN"
        ⟨"p1", some "Ana", .absent, .str "pendiente", none, none, .absent⟩ = true := by
      unfold matchesSearch
      rw [nameOrEmpty_eq]
      show includes (lower "Ana") (lower "AN") = true
      rw [hana, hAN]
      decide
    have m2 : matchesSearch lower "AN"
        ⟨"p2", none, .absent, .null, none, none, .absent⟩ = false := by
      unfold matchesSearch
      rw [nameOrEmpty_eq]
      show includes (lower "") (lower "AN") = false
      rw [hnone, hAN]
      decide
    have m3 : matchesSearch lower "pendiente"
        ⟨"p1", some "Ana", .absent, .str "pendiente", none, none, .absent⟩ = false := by
      unfold matchesSearch
      rw [nameOrEmpty_eq]
      show includes (lower "Ana") (lower "pendiente") = false
      rw [hana, hpend]
      decide
    have m4 : matchesSearch lower "pendiente"
        ⟨"p2", none, .absent, .null, none, none, .absent⟩ = false := by
      unfold matchesSearch
      rw [nameOrEmpty_eq]
      show includes (lower "") (lower "pendiente") = false
      rw [hnone, hpend]
      decide
    constructor
    · simp [filteredOrders, List.filter, m1, m2]
    · simp [filteredOrders, List.filter, m3, m4]

/-- Witness of C5: with the ASCII lowering as the platform function, the query "AN"
finds the record named "Ana" and not the record without a name, and the query
"pendiente" finds neither. -/
theorem filteredOrders_is_name_filter_witness :
    filteredOrders toLowerCase
        [⟨"p1", some "Ana", .absent, .str "pendiente", none, none, .absent⟩,
         ⟨"p2", none, .absent, .null, none, none, .absent⟩] "AN"
      = [⟨"p1", some "Ana", .absent, .str "pendiente", none, none, .absent⟩] ∧
    filteredOrders toLowerCase
        [⟨"p1", some "Ana", .absent, .str "pendiente", none, none, .absent⟩,
         ⟨"p2", none, .absent, .null, none, none, .absent⟩] "pendiente"
      = [] :=
  (filteredOrders_is_name_filter toLowerCase [] "").2.2.2.2.2.2.2.2 (fun _ _ => rfl)

/-! ## `OrdersScreen.js`: pagination -/

/-- For a positive page size, `totalPages` is the rounded-up quotient `Math.ceil` computes. -/
theorem totalPages_eq_ceil (filtered : List Order) (size : Nat) (hsize : 0 < size) :
    totalPages filtered size = ⌈(filtered.length : ℚ) / size⌉₊ := by
  apply le_antisymm
  · obtain ⟨k, hk⟩ : ∃ k, ⌈(filtered.length : ℚ) / size⌉₊ = k := ⟨_, rfl⟩
    rw [hk]
    have h1 : (filtered.length : ℚ) / size ≤ k := by
      rw [← hk]; exact Nat.le_ceil _
    have hpos : (0 : ℚ) < size := by exact_mod_cast hsize
    rw [div_le_iff₀ hpos] at h1
    have h2 : filtered.length ≤ k * size := by exact_mod_cast h1
    unfold totalPages
    rw [Nat.div_le_iff_le_mul_add_pred hsize, Nat.mul_comm size k]
    generalize k * size = m at h2 ⊢
    omega
  · rw [Nat.ceil_le]
    have hpos : (0 : ℚ) < size := by exact_mod_cast hsize
    rw [div_le_iff₀ hpos]
    have h2 : filtered.length ≤ totalPages filtered size * size := by
      unfold totalPages
      have hdm := Nat.div_add_mod (filtered.length + size - 1) size
      have hlt := Nat.mod_lt (filtered.length + size - 1) hsize
      rw [Nat.mul_comm size] at hdm
      generalize (filtered.length + size - 1) / size * size = m at hdm ⊢
      omega
    exact_mod_cast h2

theorem totalPages_nil (size : Nat) : totalPages [] size = 0 := by
  unfold totalPages
  rcases Nat.eq_zero_or_pos size with h | h
  · subst h; rfl
  · simp only [List.length_nil, Nat.zero_add]
    exact Nat.div_eq_of_lt (by omega)

theorem totalPages_pos (filtered : List Order) (size : Nat) (hsize : 0 < size)
    (hne : filtered ≠ []) : 1 ≤ totalPages filtered size := by
  unfold totalPages
  have hlen : 0 < filtered.length := List.length_pos.2 hne
  rw [Nat.le_div_iff_mul_le hsize]
  omega

/-- C4 as stated fails: for the empty filtered list and page size 5, `totalPages` is
`Math.ceil(0 / 5) = 0`, not the minimum 1 of `pageCount`. -/
theorem totalPages_empty_is_zero :
    totalPages [] 5 = 0 ∧ pageCount [] 5 = 1 ∧ totalPages [] 5 ≠ pageCount [] 5 := by
  have h : pageCount [] 5 = 1 := by simp [pageCount]
  refine ⟨by decide, h, ?_⟩
  rw [h]
  decide

/-- C4 amended: for every filtered list and positive page size, `totalPages` equals
`ceil(len(filtered)/pageSize)` with no minimum; it is 0 exactly when the filtered
list is empty, and at least 1 (and equal to `pageCount`) when it is not. -/
theorem totalPages_is_ceil (filtered : List Order) (size : Nat) (hsize : 0 < size) :
    totalPages filtered size = ⌈(filtered.length : ℚ) / size⌉₊ ∧
    (totalPages filtered size = 0 ↔ filtered = []) ∧
    (filtered ≠ [] →
      1 ≤ totalPages filtered size ∧ totalPages filtered size = pageCount filtered size) := by
  have hceil := totalPages_eq_ceil filtered size hsize
  refine ⟨hceil, ⟨?_, ?_⟩, ?_⟩
  · intro h0
    by_contra hne
    have := totalPages_pos filtered size hsize hne
    omega
  · rintro rfl
    exact totalPages_nil size
  · intro hne
    have hpos := totalPages_pos filtered size hsize hne
    refine ⟨hpos, ?_⟩
    unfold pageCount
    rw [← hceil]
    omega

/-- Witness of C4 amended: one record, page size 5. -/
theorem totalPages_is_ceil_witness :
    totalPages [⟨"p1", some "Ana", .absent, .null, none, none, .absent⟩] 5
      = ⌈(([⟨"p1", some "Ana", .absent, .null, none, none, .absent⟩] : List Order).length : ℚ)
          / (5 : Nat)⌉₊ :=
  (totalPages_is_ceil [⟨"p1", some "Ana", .absent, .null, none, none, .absent⟩] 5
    (by decide)).1

theorem slice_of_nat {α : Type} (xs : List α) (a b : Nat) :
    slice xs (a : Int) (b : Int) = (xs.drop a).take (b - a) := by
  unfold slice relativeIndex
  have ha : ¬ ((a : Int) < 0) := by omega
  have hb : ¬ ((b : Int) < 0) := by omega
  simp only [ha, hb, if_false, Int.toNat_ofNat]
  by_cases hle : a ≤ xs.length
  · rw [Nat.min_eq_left hle, List.take_eq_take, List.length_drop]
    omega
  · have h1 : xs.length ≤ a := by omega
    rw [Nat.min_eq_right h1, List.drop_eq_nil_of_le h1, List.drop_eq_nil_of_le (Nat.le_refl _)]
    simp

theorem currentOrders_of_nat (filtered : List Order) (p size : Nat) (hp : 1 ≤ p) :
    currentOrders filtered (p : Int) size = (filtered.drop ((p - 1) * size)).take size := by
  unfold currentOrders indexOfFirstOrder indexOfLastOrder
  have h1 : ((p : Int) * (size : Int)) = ((p * size : Nat) : Int) := by push_cast; rfl
  have h2 : ((p : Int) * (size : Int)) - (size : Int) = (((p - 1) * size : Nat) : Int) := by
    obtain ⟨q, rfl⟩ : ∃ q, p = q + 1 := ⟨p - 1, by omega⟩
    simp only [Nat.add_sub_cancel]
    push_cast
    ring
  rw [h2, h1, slice_of_nat]
  congr 1
  obtain ⟨q, rfl⟩ : ∃ q, p = q + 1 := ⟨p - 1, by omega⟩
  simp only [Nat.add_sub_cancel, Nat.add_mul, Nat.one_mul]
  omega

/-- C6: for a page index `p ≥ 1` and a positive page size, `currentOrders` is the
zero-based slice `[(p-1)*size, p*size)` of the filtered list clipped to its length:
element `i` of the page is element `(p-1)*size + i` of the list, its length is the
clipped length, and it is empty when the start lies past the end. With 12 records,
page size 5 and an empty search text there are 3 pages, page 1 is `records[0..5)`
and page 3 is `records[10..12)`, for every lowering `lower` of the platform that
lowers the empty string to itself. -/
theorem currentOrders_is_page_slice (filtered : List Order) (p size : Nat)
    (hp : 1 ≤ p) (hsize : 0 < size) (records : List Order) (h12 : records.length = 12)
    (lower : String → String) (hempty : lower "" = "") :
    (currentOrders filtered (p : Int) size = (filtered.drop ((p - 1) * size)).take size ∧
      (currentOrders filtered (p : Int) size).length
        = min (p * size) filtered.length - min ((p - 1) * size) filtered.length ∧
      (∀ i, (currentOrders filtered (p : Int) size)[i]?
        = if i < size then filtered[(p - 1) * size + i]? else none) ∧
      (filtered.length ≤ (p - 1) * size → currentOrders filtered (p : Int) size = [])) ∧
    (totalPages (filteredOrders lower records "") 5 = 3 ∧
      currentOrders (filteredOrders lower records "") 1 5 = records.take 5 ∧
      currentOrders (filteredOrders lower records "") 3 5 = records.drop 10 ∧
      (currentOrders (filteredOrders lower records "") 3 5).length = 2) := by
  have hcur := currentOrders_of_nat filtered p size hp
  have hmul : p * size = (p - 1) * size + size := by
    obtain ⟨q, rfl⟩ : ∃ q, p = q + 1 := ⟨p - 1, by omega⟩
    simp only [Nat.add_sub_cancel, Nat.add_mul, Nat.one_mul]
  refine ⟨⟨hcur, ?_, ?_, ?_⟩, ?_⟩
  · rw [hcur, List.length_take, List.length_drop, hmul]
    omega
  · intro i
    rw [hcur, List.getElem?_take, List.getElem?_drop]
  · intro hle
    rw [hcur, List.drop_eq_nil_of_le hle]
    exact List.take_nil
  · have hall : filteredOrders lower records "" = records :=
      filteredOrders_empty_query lower hempty records
    rw [hall]
    have h1 := currentOrders_of_nat records 1 5 (by decide)
    have h3 := currentOrders_of_nat records 3 5 (by decide)
    simp only [Nat.cast_one, Nat.cast_ofNat] at h1 h3
    refine ⟨?_, ?_, ?_, ?_⟩
    · unfold totalPages
      rw [h12]
    · rw [h1]
      simp
    · rw [h3]
      apply List.take_of_length_le
      rw [List.length_drop]
      omega
    · rw [h3, List.length_take, List.length_drop]
      omega

/-- Witness of C6: page 3 of twelve records with page size 5, with the ASCII lowering
as the platform function. -/
theorem currentOrders_is_page_slice_witness :
    currentOrders
        (filteredOrders toLowerCase
          (List.replicate 12 ⟨"p1", some "Ana", .absent, .null, none, none, .absent⟩) "")
        3 5
      = (List.replicate 12 ⟨"p1", some "Ana", .absent, .null, none, none, .absent⟩).drop 10 :=
  (currentOrders_is_page_slice
    (List.replicate 12 ⟨"p1", some "Ana", .absent, .null, none, none, .absent⟩) 3 5
    (by decide) (by decide)
    (List.replicate 12 ⟨"p1", some "Ana", .absent, .null, none, none, .absent⟩)
    (by decide) toLowerCase rfl).2.2.2.1

/-! ## `OrdersScreen.js`: the page index -/

theorem max_one_totalPages (filtered : List Order) (size : Nat) (hsize : 0 < size) :
    max 1 (totalPages filtered size) = pageCount filtered size := by
  unfold pageCount
  rw [totalPages_eq_ceil filtered size hsize]

/-- One event keeps the page index within `[1, max 1 totalPages]`. -/
theorem step_preserves_range (lower : String → String) (s : State) (a : Action)
    (hsize : 0 < s.itemsPerPage)
    (hload : s.loading = true → s.orders = [])
    (hlo : 1 ≤ s.currentPage)
    (hhi : s.currentPage ≤ ((max 1 (s.pageTotal lower) : Nat) : Int)) :
    0 < (step lower s a).itemsPerPage ∧
    ((step lower s a).loading = true → (step lower s a).orders = []) ∧
    1 ≤ (step lower s a).currentPage ∧
    (step lower s a).currentPage ≤ ((max 1 ((step lower s a).pageTotal lower) : Nat) : Int) := by
  cases a with
  | fetchSettled result =>
    simp only [step, fetchSettled]
    by_cases hl : s.loading = true
    · have horders := hload hl
      have htot : (s.pageTotal lower) = 0 := by
        unfold State.pageTotal State.filtered
        rw [horders]
        exact totalPages_nil _
      rw [htot] at hhi
      have hone : s.currentPage = 1 := by
        have hm : (max 1 0 : Nat) = 1 := rfl
        rw [hm] at hhi
        omega
      rw [if_pos hl]
      cases result with
      | some docs =>
        refine ⟨hsize, by simp, hlo, ?_⟩
        show s.currentPage ≤ _
        rw [hone]
        have : 1 ≤ max 1 (State.pageTotal lower { s with orders := docs, loading := false }) :=
          Nat.le_max_left _ _
        exact_mod_cast this
      | none =>
        refine ⟨hsize, by simp, hlo, ?_⟩
        show s.currentPage ≤ _
        rw [hone]
        have : 1 ≤ max 1 (State.pageTotal lower { s with loading := false }) :=
          Nat.le_max_left _ _
        exact_mod_cast this
    · rw [if_neg hl]
      exact ⟨hsize, hload, hlo, hhi⟩
  | setSearchText text =>
    simp only [step, onChangeText]
    by_cases ht : text = s.searchText
    · rw [if_pos ht]
      exact ⟨hsize, hload, hlo, hhi⟩
    · rw [if_neg ht]
      refine ⟨hsize, hload, le_refl _, ?_⟩
      show (1 : Int) ≤ _
      have : 1 ≤ max 1 (State.pageTotal lower (resetPageEffect (setSearchText text s))) :=
        Nat.le_max_left _ _
      exact_mod_cast this
  | goToNextPage =>
    simp only [step, goToNextPage]
    by_cases hn : s.currentPage < (s.pageTotal lower)
    · rw [if_pos hn]
      refine ⟨hsize, hload, ?_, ?_⟩
      · show 1 ≤ s.currentPage + 1
        omega
      · show s.currentPage + 1 ≤ ((max 1 (s.pageTotal lower) : Nat) : Int)
        have : (s.pageTotal lower) ≤ max 1 (s.pageTotal lower) := Nat.le_max_right _ _
        omega
    · rw [if_neg hn]
      exact ⟨hsize, hload, hlo, hhi⟩
  | goToPrevPage =>
    simp only [step, goToPrevPage]
    by_cases hn : s.currentPage > 1
    · rw [if_pos hn]
      refine ⟨hsize, hload, ?_, ?_⟩
      · show 1 ≤ s.currentPage - 1
        omega
      · show s.currentPage - 1 ≤ ((max 1 (s.pageTotal lower) : Nat) : Int)
        omega
    · rw [if_neg hn]
      exact ⟨hsize, hload, hlo, hhi⟩

theorem run_preserves_range (lower : String → String) (actions : List Action) (s : State)
    (hsize : 0 < s.itemsPerPage)
    (hload : s.loading = true → s.orders = [])
    (hlo : 1 ≤ s.currentPage)
    (hhi : s.currentPage ≤ ((max 1 (s.pageTotal lower) : Nat) : Int)) :
    0 < (run lower s actions).itemsPerPage ∧
    ((run lower s actions).loading = true → (run lower s actions).orders = []) ∧
    1 ≤ (run lower s actions).currentPage ∧
    (run lower s actions).currentPage ≤ ((max 1 ((run lower s actions).pageTotal lower) : Nat) : Int) := by
  induction actions generalizing s with
  | nil => exact ⟨hsize, hload, hlo, hhi⟩
  | cons a rest ih =>
    obtain ⟨h1, h2, h3, h4⟩ := step_preserves_range lower s a hsize hload hlo hhi
    exact ih (step lower s a) h1 h2 h3 h4

/-- A page index within range of a non-empty filtered list shows a non-empty page. -/
theorem page_nonempty_of_range (filtered : List Order) (p size : Nat) (hsize : 0 < size)
    (hp : 1 ≤ p) (hhi : p ≤ max 1 (totalPages filtered size)) (hne : filtered ≠ []) :
    currentOrders filtered (p : Int) size ≠ [] := by
  rw [currentOrders_of_nat filtered p size hp]
  have hpos := totalPages_pos filtered size hsize hne
  have hle : p ≤ totalPages filtered size := by
    rw [Nat.max_eq_right hpos] at hhi
    exact hhi
  have hlen : 0 < filtered.length := List.length_pos.2 hne
  have hstart : (p - 1) * size < filtered.length := by
    have h1 : (p - 1) * size ≤ (totalPages filtered size - 1) * size :=
      Nat.mul_le_mul_right _ (by omega)
    have h2 : totalPages filtered size * size ≤ filtered.length + size - 1 := by
      unfold totalPages
      exact Nat.div_mul_le_self _ _
    obtain ⟨q, hq⟩ : ∃ q, totalPages filtered size = q + 1 :=
      ⟨totalPages filtered size - 1, by omega⟩
    rw [hq] at h1 h2
    simp only [Nat.add_sub_cancel] at h1
    rw [Nat.add_mul, Nat.one_mul] at h2
    generalize q * size = m at h1 h2
    generalize (p - 1) * size = k at h1 ⊢
    omega
  intro hnil
  have hlen0 := congrArg List.length hnil
  rw [List.length_take, List.length_drop] at hlen0
  simp only [List.length_nil] at hlen0
  omega

/-- C7 as stated fails: from mount the fetch delivers twelve records and the user
pages forward to page 3; typing "bob", which one record matches, commits a render
with the new filter and the page index still 3, where `pageCount` is 1: the page index
is out of range and the page shown is empty although the filtered list is not. The
names and the text are lower-case ASCII, which every lowering keeps. -/
theorem searchText_change_commits_out_of_range_page :
    setSearchText "bob"
        (run toLowerCase initialState
          [.fetchSettled (some elevenAnaOneBob), .goToNextPage, .goToNextPage])
      ∈ renders toLowerCase initialState
          [.fetchSettled (some elevenAnaOneBob), .goToNextPage, .goToNextPage,
            .setSearchText "bob"] ∧
    (setSearchText "bob"
        (run toLowerCase initialState
          [.fetchSettled (some elevenAnaOneBob), .goToNextPage, .goToNextPage])).currentPage
      = 3 ∧
    (setSearchText "bob"
        (run toLowerCase initialState
          [.fetchSettled (some elevenAnaOneBob), .goToNextPage,
            .goToNextPage])).filtered toLowerCase
      = [⟨"p12", some "bob", .absent, .null, none, none, .absent⟩] ∧
    pageCount [⟨"p12", some "bob", .absent, .null, none, none, .absent⟩] 5 = 1 ∧
    (setSearchText "bob"
        (run toLowerCase initialState
          [.fetchSettled (some elevenAnaOneBob), .goToNextPage,
            .goToNextPage])).page toLowerCase = [] ∧
    ¬ PageIndexInRange toLowerCase
        (setSearchText "bob"
          (run toLowerCase initialState
            [.fetchSettled (some elevenAnaOneBob), .goToNextPage, .goToNextPage])) := by
  have hcount : pageCount [⟨"p12", some "bob", .absent, .null, none, none, .absent⟩] 5 = 1 := by
    rw [← max_one_totalPages _ 5 (by decide)]
    decide
  have hfiltered : (setSearchText "bob"
        (run toLowerCase initialState
          [.fetchSettled (some elevenAnaOneBob), .goToNextPage,
            .goToNextPage])).filtered toLowerCase
      = [⟨"p12", some "bob", .absent, .null, none, none, .absent⟩] := by
    decide
  refine ⟨by decide, by decide, hfiltered, hcount, by decide, ?_⟩
  rintro ⟨_, hhi⟩
  rw [hfiltered] at hhi
  have hsize : (setSearchText "bob"
        (run toLowerCase initialState
          [.fetchSettled (some elevenAnaOneBob), .goToNextPage,
            .goToNextPage])).itemsPerPage = 5 := by decide
  have hpage : (setSearchText "bob"
        (run toLowerCase initialState
          [.fetchSettled (some elevenAnaOneBob), .goToNextPage,
            .goToNextPage])).currentPage = 3 := by decide
  rw [hsize, hcount, hpage] at hhi
  omega

/-- C7 amended: in every settled state (the effect of lines 67-69 has run) reached from
a state with page index 1, such as the state at mount, by any sequence of fetch
completion, `setSearchText`, `goToNextPage` and `goToPrevPage`, the page index
satisfies `1 ≤ currentPage ≤ max(1, ceil(filteredCount/pageSize))` and a non-empty
filtered list never shows an empty page. A `setSearchText` that changes the text first
commits the render of the setter, with the new text and the page index as it was, and
the settled state it ends in has the new text and page index 1, whatever the previous
index was. This holds for every lowering `lower` of the platform. -/
theorem pageIndex_always_in_range (lower : String → String) (s0 : State)
    (hpage : s0.currentPage = 1)
    (hsize : 0 < s0.itemsPerPage) (hload : s0.loading = true → s0.orders = [])
    (actions : List Action) :
    (1 ≤ (run lower s0 actions).currentPage ∧
      (run lower s0 actions).currentPage
        ≤ ((pageCount ((run lower s0 actions).filtered lower)
            (run lower s0 actions).itemsPerPage : Nat) : Int)) ∧
    PageIndexInRange lower (run lower s0 actions) ∧
    (((run lower s0 actions).filtered lower) ≠ [] →
      ((run lower s0 actions).page lower) ≠ []) ∧
    (∀ text, text ≠ (run lower s0 actions).searchText →
      (step lower (run lower s0 actions) (.setSearchText text)).currentPage = 1) ∧
    (∀ text, (step lower (run lower s0 actions) (.setSearchText text)).searchText = text) ∧
    (∀ text, text ≠ (run lower s0 actions).searchText →
      (commits lower (run lower s0 actions) (.setSearchText text)).head?
        = some (setSearchText text (run lower s0 actions)) ∧
      (setSearchText text (run lower s0 actions)).searchText = text ∧
      (setSearchText text (run lower s0 actions)).currentPage
        = (run lower s0 actions).currentPage ∧
      (commits lower (run lower s0 actions) (.setSearchText text)).getLast?
        = some (step lower (run lower s0 actions) (.setSearchText text))) := by
  have h0 : s0.currentPage ≤ ((max 1 (s0.pageTotal lower) : Nat) : Int) := by
    rw [hpage]
    have : 1 ≤ max 1 (s0.pageTotal lower) := Nat.le_max_left _ _
    exact_mod_cast this
  obtain ⟨h1, _, h3, h4⟩ :=
    run_preserves_range lower actions s0 hsize hload (by rw [hpage]) h0
  generalize run lower s0 actions = s at h1 h3 h4 ⊢
  have hrange : 1 ≤ s.currentPage ∧
      s.currentPage ≤ ((pageCount (s.filtered lower) s.itemsPerPage : Nat) : Int) := by
    refine ⟨h3, ?_⟩
    rw [← max_one_totalPages (s.filtered lower) s.itemsPerPage h1]
    exact h4
  refine ⟨hrange, hrange, ?_, ?_, ?_, ?_⟩
  · intro hne
    obtain ⟨p, hp⟩ : ∃ p : Nat, s.currentPage = (p : Int) :=
      ⟨s.currentPage.toNat, (Int.toNat_of_nonneg (by omega)).symm⟩
    unfold State.page
    rw [hp]
    apply page_nonempty_of_range (s.filtered lower) p s.itemsPerPage h1 (by omega) _ hne
    have h5 : ((p : Nat) : Int) ≤ ((max 1 (s.pageTotal lower) : Nat) : Int) := by
      rw [← hp]; exact h4
    exact_mod_cast h5
  · intro text htext
    simp only [step, onChangeText, if_neg htext]
    rfl
  · intro text
    simp only [step, onChangeText]
    by_cases htext : text = s.searchText
    · rw [if_pos htext, htext]
    · rw [if_neg htext]
      rfl
  · intro text htext
    refine ⟨?_, rfl, rfl, ?_⟩
    · simp only [commits, if_neg htext]
      split <;> rfl
    · simp only [commits, step, onChangeText, if_neg htext]
      split
      · rename_i hone
        obtain ⟨mv, so, st, os, ld, cp, ip⟩ := s
        simp only at hone
        subst hone
        rfl
      · rfl

/-- Witness of C7 amended: from the state at mount, the fetch delivers twelve records,
the user pages forward three times and then searches for "zz". -/
theorem pageIndex_always_in_range_witness :
    1 ≤ (run toLowerCase initialState
          [.fetchSettled
              (some (List.replicate 12 ⟨"p1", some "Ana", .absent, .null, none, none, .absent⟩)),
            .goToNextPage, .goToNextPage, .goToNextPage, .setSearchText "zz"]).currentPage :=
  (pageIndex_always_in_range toLowerCase initialState rfl (by decide) (fun _ => rfl)
    [.fetchSettled
        (some (List.replicate 12 ⟨"p1", some "Ana", .absent, .null, none, none, .absent⟩)),
      .goToNextPage, .goToNextPage, .goToNextPage, .setSearchText "zz"]).1.1

/-- C8: `goToNextPage` at the last page (`totalPages ≤ currentPage`, which includes an
empty filtered list) and `goToPrevPage` at page 1 return the state unchanged; away
from the boundaries they change `currentPage` by exactly +1 and -1, and in every case
they leave every other cell of the state untouched; this holds for every lowering
`lower` of the platform. -/
theorem pageNavigation_boundaries (lower : String → String) (s : State) :
    (((s.pageTotal lower : Nat) : Int) ≤ s.currentPage → goToNextPage lower s = s) ∧
    (0 < s.itemsPerPage →
      s.currentPage = ((pageCount (s.filtered lower) s.itemsPerPage : Nat) : Int) →
      goToNextPage lower s = s) ∧
    (s.filtered lower = [] → 1 ≤ s.currentPage → goToNextPage lower s = s) ∧
    (s.currentPage = 1 → goToPrevPage s = s) ∧
    (s.currentPage < ((s.pageTotal lower : Nat) : Int) →
      goToNextPage lower s = { s with currentPage := s.currentPage + 1 }) ∧
    (1 < s.currentPage → goToPrevPage s = { s with currentPage := s.currentPage - 1 }) ∧
    ({ goToNextPage lower s with currentPage := s.currentPage } = s) ∧
    ({ goToPrevPage s with currentPage := s.currentPage } = s) := by
  have hnext : ((s.pageTotal lower : Nat) : Int) ≤ s.currentPage → goToNextPage lower s = s := by
    intro h
    unfold goToNextPage
    rw [if_neg (by omega)]
  refine ⟨hnext, ?_, ?_, ?_, ?_, ?_, ?_, ?_⟩
  · intro hsize hlast
    apply hnext
    rw [hlast, ← max_one_totalPages (s.filtered lower) s.itemsPerPage hsize]
    have : (s.pageTotal lower) ≤ max 1 (totalPages (s.filtered lower) s.itemsPerPage) := Nat.le_max_right _ _
    exact_mod_cast this
  · intro hnil hone
    apply hnext
    have : (s.pageTotal lower) = 0 := by
      unfold State.pageTotal
      rw [hnil]
      exact totalPages_nil _
    rw [this]
    omega
  · intro hone
    unfold goToPrevPage
    rw [if_neg (by omega)]
  · intro h
    unfold goToNextPage
    rw [if_pos h]
  · intro h
    unfold goToPrevPage
    rw [if_pos (by omega)]
  · unfold goToNextPage
    split <;> rfl
  · unfold goToPrevPage
    split <;> rfl

/-- Witness of C8: at mount the filtered list is empty and the next page is a no-op. -/
theorem pageNavigation_boundaries_witness :
    goToNextPage toLowerCase initialState = initialState :=
  (pageNavigation_boundaries toLowerCase initialState).1 (by decide)

/-! ## `OrdersScreen.js`: status colour -/

/-- On a string `getStatusColor` never throws; it depends on the lowered string only. -/
theorem getStatusColor_str (s : String) :
    getStatusColor (.str s) =
      .ok (if toLowerCase s = "pendiente" then "#FFC107"
           else if toLowerCase s = "enviado" then "#2196F3"
           else if toLowerCase s = "entregado" then "#4CAF50"
           else if toLowerCase s = "cancelado" then "#F44336"
           else "#9E9E9E") := by
  unfold getStatusColor
  by_cases h0 : s = ""
  · subst h0
    rfl
  · have ht : truthy (.str s) = true := by simp [truthy, h0]
    simp only [ht, Bool.not_true, Bool.false_eq_true, if_false, callToLowerCase, bind,
      Except.bind]
    split_ifs <;> rfl

theorem getStatusColor_str_eq_statusColor (s : String) :
    getStatusColor (.str s) = .ok (statusColor (some s)) := by
  rw [getStatusColor_str]
  have h1 : equalsIgnoreCase s "pendiente" = true ↔ toLowerCase s = "pendiente" :=
    equalsIgnoreCase_iff s "pendiente"
  have h2 : equalsIgnoreCase s "enviado" = true ↔ toLowerCase s = "enviado" :=
    equalsIgnoreCase_iff s "enviado"
  have h3 : equalsIgnoreCase s "entregado" = true ↔ toLowerCase s = "entregado" :=
    equalsIgnoreCase_iff s "entregado"
  have h4 : equalsIgnoreCase s "cancelado" = true ↔ toLowerCase s = "cancelado" :=
    equalsIgnoreCase_iff s "cancelado"
  simp only [statusColor, h1, h2, h3, h4]

/-- C9: `getStatusColor` returns, without failing, for every status that is a string,
`null` or absent; it gives the warning colour for "pendiente", the info colour for
"enviado", the success colour for "entregado" and the danger colour for "cancelado"
under any casing, and the neutral colour for every other string and for `null` or
absent; two strings equal up to case get the same colour. -/
theorem getStatusColor_total_case_insensitive (s : String) :
    getStatusColor (.str s) = .ok (statusColor (some s)) ∧
    getStatusColor .null = .ok (statusColor none) ∧
    getStatusColor .undefined = .ok (statusColor none) ∧
    (∀ t : String, equalsIgnoreCase s t = true →
      getStatusColor (.str s) = getStatusColor (.str t)) ∧
    (equalsIgnoreCase s "pendiente" = true → getStatusColor (.str s) = .ok "#FFC107") ∧
    (equalsIgnoreCase s "enviado" = true → getStatusColor (.str s) = .ok "#2196F3") ∧
    (equalsIgnoreCase s "entregado" = true → getStatusColor (.str s) = .ok "#4CAF50") ∧
    (equalsIgnoreCase s "cancelado" = true → getStatusColor (.str s) = .ok "#F44336") ∧
    (equalsIgnoreCase s "pendiente" = false → equalsIgnoreCase s "enviado" = false →
      equalsIgnoreCase s "entregado" = false → equalsIgnoreCase s "cancelado" = false →
      getStatusColor (.str s) = .ok "#9E9E9E") ∧
    getStatusColor (.str "PENDIENTE") = getStatusColor (.str "pendiente") ∧
    getStatusColor .null = .ok "#9E9E9E" := by
  have hs := getStatusColor_str_eq_statusColor s
  refine ⟨hs, rfl, rfl, ?_, ?_, ?_, ?_, ?_, ?_, by decide, rfl⟩
  · intro t ht
    rw [getStatusColor_str, getStatusColor_str, (equalsIgnoreCase_iff s t).1 ht]
  · intro h
    rw [hs]
    simp [statusColor, h]
  · intro h
    have h1 : equalsIgnoreCase s "pendiente" = false := by
      rw [← Bool.not_eq_true, equalsIgnoreCase_iff, (equalsIgnoreCase_iff s "enviado").1 h]
      decide
    rw [hs]
    simp [statusColor, h, h1]
  · intro h
    have hl := (equalsIgnoreCase_iff s "entregado").1 h
    have h1 : equalsIgnoreCase s "pendiente" = false := by
      rw [← Bool.not_eq_true, equalsIgnoreCase_iff, hl]
      decide
    have h2 : equalsIgnoreCase s "enviado" = false := by
      rw [← Bool.not_eq_true, equalsIgnoreCase_iff, hl]
      decide
    rw [hs]
    simp [statusColor, h, h1, h2]
  · intro h
    have hl := (equalsIgnoreCase_iff s "cancelado").1 h
    have h1 : equalsIgnoreCase s "pendiente" = false := by
      rw [← Bool.not_eq_true, equalsIgnoreCase_iff, hl]
      decide
    have h2 : equalsIgnoreCase s "enviado" = false := by
      rw [← Bool.not_eq_true, equalsIgnoreCase_iff, hl]
      decide
    have h3 : equalsIgnoreCase s "entregado" = false := by
      rw [← Bool.not_eq_true, equalsIgnoreCase_iff, hl]
      decide
    rw [hs]
    simp [statusColor, h, h1, h2, h3]
  · intro h1 h2 h3 h4
    rw [hs]
    simp [statusColor, h1, h2, h3, h4]

/-- Witness of C9: "Enviado" gets the info colour. -/
theorem getStatusColor_total_case_insensitive_witness :
    getStatusColor (.str "Enviado") = .ok "#2196F3" :=
  (getStatusColor_total_case_insensitive "Enviado").2.2.2.2.2.1 (by decide)

/-! ## `OrdersScreen.js`: product lines -/

theorem lines_enumFrom (numberToString : Int → String) (items : List Product) (n : Nat) :
    lines ((items.enumFrom n).map
        (fun (x : Nat × Product) =>
          (⟨some (toString x.1), productText numberToString x.2⟩ : TextLine)))
      = items.map (productText numberToString) := by
  induction items generalizing n with
  | nil => rfl
  | cons item rest ih =>
    simp only [List.enumFrom, List.map_cons, lines, List.cons.injEq, true_and]
    exact ih (n + 1)

theorem lines_array (numberToString : Int → String) (items : List Product)
    (hne : items ≠ []) :
    lines (formatProducts numberToString (.array items))
      = items.map (productText numberToString) := by
  have hlen : items.length > 0 := List.length_pos.2 hne
  simp only [formatProducts, hlen, if_true]
  exact lines_enumFrom numberToString items 0

theorem lines_mapping (numberToString : Int → String) (entries : List (String × Product))
    (hne : entries ≠ []) :
    lines (formatProducts numberToString (.mapping entries))
      = (entries.map Prod.snd).map (productText numberToString) := by
  have hlen : entries.length > 0 := List.length_pos.2 hne
  simp only [formatProducts, hlen, if_true, lines, List.map_map]
  rfl

/-- C10: an ordered collection of products supplied as an array and supplied as a keyed
mapping holding the same entries in the same order produce the same ordered sequence
of lines, one line "• name (xquantity)" per product with the quantity spelled by the
platform's number conversion `numberToString`, whatever that spelling is; absent
input, the empty array and the empty mapping each produce the single line
"Sin productos"; and when the platform spells the number 2 as "2", the product
`{name: "Bread", quantity: 2}` gives the line "• Bread (x2)" in both shapes. -/
theorem formatProducts_array_mapping_agree (numberToString : Int → String)
    (entries : List (String × Product)) :
    lines (formatProducts numberToString (.array (entries.map Prod.snd)))
      = lines (formatProducts numberToString (.mapping entries)) ∧
    (entries ≠ [] →
      lines (formatProducts numberToString (.mapping entries))
        = (entries.map Prod.snd).map
            (fun prod => "• " ++ prod.name ++ " (x" ++ numberToString prod.quantity ++ ")")) ∧
    (∀ items : List Product, items ≠ [] →
      lines (formatProducts numberToString (.array items))
        = items.map
            (fun prod => "• " ++ prod.name ++ " (x" ++ numberToString prod.quantity ++ ")")) ∧
    lines (formatProducts numberToString .absent) = ["Sin productos"] ∧
    lines (formatProducts numberToString (.array [])) = ["Sin productos"] ∧
    lines (formatProducts numberToString (.mapping [])) = ["Sin productos"] ∧
    (numberToString 2 = "2" →
      lines (formatProducts numberToString (.mapping [("a", ⟨"Bread", 2⟩)]))
        = ["• Bread (x2)"] ∧
      lines (formatProducts numberToString (.array [⟨"Bread", 2⟩])) = ["• Bread (x2)"]) := by
  refine ⟨?_, ?_, ?_, rfl, rfl, rfl, ?_⟩
  · cases entries with
    | nil => rfl
    | cons e rest =>
      rw [lines_mapping _ _ (by simp), lines_array _ _ (by simp)]
  · intro hne
    exact lines_mapping numberToString entries hne
  · intro items hne
    exact lines_array numberToString items hne
  · intro h2
    rw [lines_mapping _ _ (by simp), lines_array _ _ (by simp)]
    simp only [List.map_cons, List.map_nil, productText, h2]
    decide

/-- Witness of C10: with decimal digits as the platform's spelling of a number, the
product `{name: "Bread", quantity: 2}` gives "• Bread (x2)" as a mapping and as an array. -/
theorem formatProducts_array_mapping_agree_witness :
    lines (formatProducts (fun q => toString q) (.mapping [("a", ⟨"Bread", 2⟩)]))
      = ["• Bread (x2)"] ∧
    lines (formatProducts (fun q => toString q) (.array [⟨"Bread", 2⟩])) = ["• Bread (x2)"] :=
  (formatProducts_array_mapping_agree (fun q => toString q) []).2.2.2.2.2.2 (by decide)

/-! ## `OrdersScreen.js`: selection -/

/-- C11 as stated fails: after picking a record at mount and dismissing the detail
view with "Cerrar", `selectedOrder` still holds the record; it is not set back to
null as `clearSelection` would. -/
theorem closeModal_keeps_selectedOrder :
    (closeModal
        (handlePressOrder ⟨"p1", some "Ana", .absent, .null, none, none, .absent⟩
          initialState)).selectedOrder
      = some ⟨"p1", some "Ana", .absent, .null, none, none, .absent⟩ ∧
    (clearSelection
        (handlePressOrder ⟨"p1", some "Ana", .absent, .null, none, none, .absent⟩
          initialState)).selectedOrder = none ∧
    closeModal
        (handlePressOrder ⟨"p1", some "Ana", .absent, .null, none, none, .absent⟩ initialState)
      ≠ clearSelection
        (handlePressOrder ⟨"p1", some "Ana", .absent, .null, none, none, .absent⟩
          initialState) := by
  decide

/-- C11 amended: `handlePressOrder` sets `selectedOrder` to exactly the record picked
and shows the detail view; dismissing the view sets `modalVisible` to false, which
takes the view off screen, and leaves `selectedOrder` as it was; neither transition
changes the search text, the page index, the page size, the record set, the filtered
list or the page shown, for every lowering `lower` of the platform. -/
theorem selection_transitions (lower : String → String) (s : State) (order : Order) :
    ((handlePressOrder order s).selectedOrder = some order ∧
      (handlePressOrder order s).modalVisible = true ∧
      detailShown (handlePressOrder order s) = true) ∧
    ((closeModal s).modalVisible = false ∧
      (closeModal s).selectedOrder = s.selectedOrder ∧
      detailShown (closeModal s) = false ∧
      (closeModal (handlePressOrder order s)).selectedOrder = some order) ∧
    ((handlePressOrder order s).searchText = s.searchText ∧
      (handlePressOrder order s).currentPage = s.currentPage ∧
      (handlePressOrder order s).itemsPerPage = s.itemsPerPage ∧
      (handlePressOrder order s).orders = s.orders ∧
      (handlePressOrder order s).filtered lower = s.filtered lower ∧
      (handlePressOrder order s).page lower = s.page lower) ∧
    ((closeModal s).searchText = s.searchText ∧
      (closeModal s).currentPage = s.currentPage ∧
      (closeModal s).itemsPerPage = s.itemsPerPage ∧
      (closeModal s).orders = s.orders ∧
      (closeModal s).filtered lower = s.filtered lower ∧
      (closeModal s).page lower = s.page lower) := by
  refine ⟨⟨rfl, rfl, rfl⟩, ⟨rfl, rfl, ?_, rfl⟩, ⟨rfl, rfl, rfl, rfl, rfl, rfl⟩,
    ⟨rfl, rfl, rfl, rfl, rfl, rfl⟩⟩
  simp [detailShown, closeModal]

/-! ## `OrdersScreen.js`: the pages partition the filtered list -/

theorem flatten_chunks {α : Type} (l : List α) (size n : Nat) :
    ((List.range n).map (fun i => (l.drop (i * size)).take size)).flatten
      = l.take (n * size) := by
  induction n with
  | zero => simp
  | succ n ih =>
    rw [List.range_succ, List.map_append, List.flatten_append, ih, Nat.succ_mul,
      List.take_add]
    simp

theorem length_le_totalPages_mul (filtered : List Order) (size : Nat) (hsize : 0 < size) :
    filtered.length ≤ totalPages filtered size * size := by
  unfold totalPages
  have hdm := Nat.div_add_mod (filtered.length + size - 1) size
  have hlt := Nat.mod_lt (filtered.length + size - 1) hsize
  rw [Nat.mul_comm size] at hdm
  generalize (filtered.length + size - 1) / size * size = m at hdm ⊢
  omega

theorem totalPages_mul_le (filtered : List Order) (size : Nat) :
    totalPages filtered size * size ≤ filtered.length + size - 1 := by
  unfold totalPages
  exact Nat.div_mul_le_self _ _

theorem allPages_eq (filtered : List Order) (size : Nat) :
    allPages filtered size
      = (List.range (totalPages filtered size)).map
          (fun i => (filtered.drop (i * size)).take size) := by
  unfold allPages
  apply List.map_congr_left
  intro i _
  rw [currentOrders_of_nat filtered (i + 1) size (by omega), Nat.add_sub_cancel]

/-- C13: for every filtered list and positive page size, concatenating `currentOrders`
for `currentPage = 1, ..., totalPages` in order yields exactly the filtered list;
every page before the last holds exactly `itemsPerPage` records; and the record at
position `j` of the filtered list is shown on page `j / itemsPerPage + 1` at position
`j % itemsPerPage`, which is the only page and position it is shown at. -/
theorem pages_partition_filtered (filtered : List Order) (size : Nat) (hsize : 0 < size) :
    (allPages filtered size).flatten = filtered ∧
    (allPages filtered size).length = totalPages filtered size ∧
    (∀ p : Nat, 1 ≤ p → p < totalPages filtered size →
      (currentOrders filtered (p : Int) size).length = size) ∧
    (∀ j : Nat, j < filtered.length →
      j / size + 1 ≤ totalPages filtered size ∧
      (currentOrders filtered ((j / size + 1 : Nat) : Int) size)[j % size]? = filtered[j]?) ∧
    (∀ p i j : Nat, 1 ≤ p → i < size → (p - 1) * size + i = j →
      (currentOrders filtered (p : Int) size)[i]? = filtered[j]? ∧
      p = j / size + 1 ∧ i = j % size) := by
  have hcover := length_le_totalPages_mul filtered size hsize
  have hupper := totalPages_mul_le filtered size
  refine ⟨?_, ?_, ?_, ?_, ?_⟩
  · rw [allPages_eq, flatten_chunks]
    exact List.take_of_length_le hcover
  · simp [allPages]
  · intro p hp hlt
    rw [currentOrders_of_nat filtered p size hp, List.length_take, List.length_drop]
    obtain ⟨q, rfl⟩ : ∃ q, p = q + 1 := ⟨p - 1, by omega⟩
    obtain ⟨t, ht⟩ : ∃ t, totalPages filtered size = q + 1 + 1 + t :=
      ⟨totalPages filtered size - (q + 1 + 1), by omega⟩
    rw [ht] at hupper
    simp only [Nat.add_sub_cancel]
    have hexp : (q + 1 + 1 + t) * size = q * size + size + size + t * size := by ring
    rw [hexp] at hupper
    generalize q * size = a at hupper ⊢
    generalize t * size = b at hupper
    omega
  · intro j hj
    have hdiv : j / size < totalPages filtered size := by
      rw [Nat.div_lt_iff_lt_mul hsize]
      omega
    refine ⟨Nat.succ_le_of_lt hdiv, ?_⟩
    rw [currentOrders_of_nat filtered (j / size + 1) size (Nat.le_add_left 1 _),
      Nat.add_sub_cancel,
      List.getElem?_take, if_pos (Nat.mod_lt j hsize), List.getElem?_drop,
      Nat.mul_comm, Nat.div_add_mod]
  · intro p i j hp hi hj
    obtain ⟨q, rfl⟩ : ∃ q, p = q + 1 := ⟨p - 1, by omega⟩
    simp only [Nat.add_sub_cancel] at hj
    refine ⟨?_, ?_, ?_⟩
    · rw [currentOrders_of_nat filtered (q + 1) size (by omega), Nat.add_sub_cancel,
        List.getElem?_take, if_pos hi, List.getElem?_drop, hj]
    · rw [← hj, Nat.mul_comm, Nat.mul_add_div hsize, Nat.div_eq_of_lt hi]
    · rw [← hj, Nat.mul_comm, Nat.mul_add_mod, Nat.mod_eq_of_lt hi]

/-- Witness of C13: twelve records in pages of five. -/
theorem pages_partition_filtered_witness :
    (allPages (List.replicate 12 ⟨"p1", some "Ana", .absent, .null, none, none, .absent⟩)
        5).flatten
      = List.replicate 12 ⟨"p1", some "Ana", .absent, .null, none, none, .absent⟩ :=
  (pages_partition_filtered
    (List.replicate 12 ⟨"p1", some "Ana", .absent, .null, none, none, .absent⟩) 5
    (by decide)).1

end OrdersScreen

/-! ## `Layout.js`: the drawer -/

namespace Layout

/-- One step keeps `slideAnim` and the target of the animation in flight between
`-DRAWER_WIDTH` and `0`. -/
theorem menuStep_preserves_bounds (s : MenuState) (e : MenuEvent)
    (hlo : -1 ≤ s.slideAnim) (hhi : s.slideAnim ≤ 0)
    (hrun : ∀ t, s.running = some t → -1 ≤ t.toValue ∧ t.toValue ≤ 0) :
    -1 ≤ (menuStep s e).slideAnim ∧ (menuStep s e).slideAnim ≤ 0 ∧
    (∀ t, (menuStep s e).running = some t → -1 ≤ t.toValue ∧ t.toValue ≤ 0) := by
  have hend : (endAnimation s).slideAnim = s.slideAnim := by
    unfold endAnimation
    cases s.running <;> rfl
  have hclose : -1 ≤ (closeMenu s).slideAnim ∧ (closeMenu s).slideAnim ≤ 0 ∧
      (∀ t, (closeMenu s).running = some t → -1 ≤ t.toValue ∧ t.toValue ≤ 0) := by
    refine ⟨?_, ?_, ?_⟩
    · show -1 ≤ (endAnimation s).slideAnim
      rw [hend]; exact hlo
    · show (endAnimation s).slideAnim ≤ 0
      rw [hend]; exact hhi
    · intro t ht
      have : t = ⟨-1, true⟩ := (Option.some.inj ht).symm
      subst this
      constructor <;> norm_num
  cases e with
  | closeRequest => exact hclose
  | toggle =>
    simp only [menuStep, handleMenuPress]
    split
    · exact hclose
    · have hend2 : (endAnimation { s with menuVisible := true }).slideAnim = s.slideAnim := by
        unfold endAnimation
        cases s.running <;> rfl
      refine ⟨?_, ?_, ?_⟩
      · show -1 ≤ (endAnimation { s with menuVisible := true }).slideAnim
        rw [hend2]; exact hlo
      · show (endAnimation { s with menuVisible := true }).slideAnim ≤ 0
        rw [hend2]; exact hhi
      · intro t ht
        have : t = ⟨0, false⟩ := (Option.some.inj ht).symm
        subst this
        constructor <;> norm_num
  | frame value =>
    simp only [menuStep, advance]
    cases hr : s.running with
    | none => exact ⟨hlo, hhi, by intro t ht; rw [hr] at ht; cases ht⟩
    | some t0 =>
      obtain ⟨h1, h2⟩ := hrun t0 hr
      simp only
      split
      · rename_i hbetween
        refine ⟨?_, ?_, ?_⟩
        · show -1 ≤ value
          rcases hbetween with h | h <;> linarith [h.1, h.2]
        · show value ≤ 0
          rcases hbetween with h | h <;> linarith [h.1, h.2]
        · intro t ht
          exact hrun t (by rw [hr]; exact ht)
      · exact ⟨hlo, hhi, fun t ht => hrun t ht⟩
  | completion =>
    simp only [menuStep, finish]
    cases hr : s.running with
    | none => exact ⟨hlo, hhi, by intro t ht; rw [hr] at ht; cases ht⟩
    | some t0 =>
      obtain ⟨h1, h2⟩ := hrun t0 hr
      simp only [endAnimation, hr]
      exact ⟨h1, h2, by intro t ht; cases ht⟩

/-- The progress of the drawer stays within `[0, 1]` along every sequence of steps. -/
theorem progress_in_unit_interval (events : List MenuEvent) :
    0 ≤ progress (menuRun initialMenu events) ∧ progress (menuRun initialMenu events) ≤ 1 := by
  have key : ∀ (evs : List MenuEvent) (s : MenuState), -1 ≤ s.slideAnim → s.slideAnim ≤ 0 →
      (∀ t, s.running = some t → -1 ≤ t.toValue ∧ t.toValue ≤ 0) →
      -1 ≤ (menuRun s evs).slideAnim ∧ (menuRun s evs).slideAnim ≤ 0 := by
    intro evs
    induction evs with
    | nil => intro s hlo hhi _; exact ⟨hlo, hhi⟩
    | cons e rest ih =>
      intro s hlo hhi hrun
      obtain ⟨h1, h2, h3⟩ := menuStep_preserves_bounds s e hlo hhi hrun
      exact ih (menuStep s e) h1 h2 h3
  obtain ⟨h1, h2⟩ := key events initialMenu (by norm_num [initialMenu])
    (by norm_num [initialMenu]) (by intro t ht; cases ht)
  unfold progress
  constructor <;> linarith

/-- C12 fails on the code at a second close request during a close animation: from
mount, the menu button opens the drawer and the open animation completes; the menu
button starts the close animation with the drawer still mounted; the menu button
pressed again before that animation completes starts a second close animation, the
first one is stopped, its callback runs, and `menuVisible` is false although no close
animation has completed and the progress is still 1. A close request from the overlay
instead of the second press does the same. -/
theorem second_close_hides_drawer_before_completion :
    ((menuRun initialMenu [.toggle, .completion]).menuVisible = true ∧
      progress (menuRun initialMenu [.toggle, .completion]) = 1 ∧
      (menuRun initialMenu [.toggle, .completion]).running = none) ∧
    ((menuRun initialMenu [.toggle, .completion, .toggle]).menuVisible = true ∧
      (menuRun initialMenu [.toggle, .completion, .toggle]).running = some ⟨-1, true⟩) ∧
    ((menuRun initialMenu [.toggle, .completion, .toggle, .toggle]).menuVisible = false ∧
      (menuRun initialMenu [.toggle, .completion, .toggle, .toggle]).running
        = some ⟨-1, true⟩ ∧
      progress (menuRun initialMenu [.toggle, .completion, .toggle, .toggle]) = 1) ∧
    ((menuRun initialMenu [.toggle, .completion, .toggle, .closeRequest]).menuVisible = false ∧
      (menuRun initialMenu [.toggle, .completion, .toggle, .closeRequest]).running
        = some ⟨-1, true⟩ ∧
      progress (menuRun initialMenu [.toggle, .completion, .toggle, .closeRequest]) = 1) := by
  refine ⟨⟨rfl, ?_, rfl⟩, ⟨rfl, rfl⟩, ⟨rfl, rfl, ?_⟩, ⟨rfl, rfl, ?_⟩⟩ <;>
    norm_num [progress, menuRun, menuStep, handleMenuPress, openMenu, closeMenu, start,
      endAnimation, finish, initialMenu]

end Layout

end Minimarket
